import Mathlib

set_option maxRecDepth 100000

/-!
Verification development for the structured-answer rendering engine
(`mayank.py`): a shallow embedding of the math classifier/cleaner, the
block renderers, the HTML document orchestrator and the plain-text/LaTeX
exporter, together with theorems about the spec's testable properties.

Python strings are modelled as `List Char` (wrapped back into `String` at
the API boundary).  The `re` module operations used by the source are
modelled by a small backtracking matcher (`reRun`) with Python's
semantics: leftmost search, greedy repetition, ordered alternation,
numbered capture groups, and `re.sub`'s non-overlapping left-to-right
replacement.  Replacement templates are spelled out as `Tmpl` lists; note
that Python processes escapes in replacement strings, so the source's raw
replacement `\...1 \text{\...2}` inserts a literal TAB character (the
`\t`) — the templates below reproduce this faithfully.
-/

namespace AnswerGen

/-- Python `str.strip()` whitespace (ASCII subset actually occurring in inputs). -/
def isPySpace (c : Char) : Bool :=
  c == ' ' || c == '\t' || c == '\n' || c == '\r' || c.toNat == 11 || c.toNat == 12

def isAsciiUpper (c : Char) : Bool := 65 ≤ c.toNat && c.toNat ≤ 90

def isAsciiLower (c : Char) : Bool := 97 ≤ c.toNat && c.toNat ≤ 122

def isAsciiAlpha (c : Char) : Bool := isAsciiUpper c || isAsciiLower c

def isAsciiDigit (c : Char) : Bool := 48 ≤ c.toNat && c.toNat ≤ 57

def isAsciiAlnum (c : Char) : Bool := isAsciiAlpha c || isAsciiDigit c

/-- `str.strip()` on the character-list representation. -/
def pyStripList (s : List Char) : List Char :=
  ((s.dropWhile isPySpace).reverse.dropWhile isPySpace).reverse

/-- `str.strip()`. -/
def pyStrip (s : String) : String := ⟨pyStripList s.data⟩

/-- `str.lower()` (ASCII). -/
def pyLowerList (s : List Char) : List Char :=
  s.map (fun c => if isAsciiUpper c then Char.ofNat (c.toNat + 32) else c)

/-- Python `str.replace(pat, rep)`: leftmost, non-overlapping; the fuel
(`l.length` at the top entry) is structural so that concrete runs reduce
in the kernel.  (The `pat = []` case cannot arise from the source's calls.) -/
def pyReplaceAux (pat rep : List Char) : Nat → List Char → List Char
  | 0, l => l
  | _, [] => []
  | t+1, c :: rest =>
    if !pat.isEmpty && pat.isPrefixOf (c :: rest) then
      rep ++ pyReplaceAux pat rep t ((c :: rest).drop pat.length)
    else
      c :: pyReplaceAux pat rep t rest

def pyReplaceList (pat rep : List Char) (l : List Char) : List Char :=
  pyReplaceAux pat rep l.length l

/-- `html.escape` (quote=True): `&`, `<`, `>`, `"` and the apostrophe. -/
def pyHtmlEscapeChar (c : Char) : List Char :=
  if c == '&' then "&amp;".data
  else if c == '<' then "&lt;".data
  else if c == '>' then "&gt;".data
  else if c == '"' then "&quot;".data
  else if c == Char.ofNat 39 then "&#x27;".data
  else [c]

def pyHtmlEscapeList (s : List Char) : List Char := s.flatMap pyHtmlEscapeChar

def pyHtmlEscape (s : String) : String := ⟨pyHtmlEscapeList s.data⟩

/-! ### A Python-`re` faithful regular-expression engine -/

/-- Regex AST covering the constructs used by the source's patterns.
`alt` prefers its left alternative, `star`/`opt` are greedy, matching the
Python `re` backtracking semantics. -/
inductive RE where
  | eps : RE
  | sym : (Char → Bool) → RE
  | cat : RE → RE → RE
  | alt : RE → RE → RE
  | star : RE → RE
  | opt : RE → RE
  | grp : Nat → RE → RE
  | bol : RE
  | eol : RE

/-- Single literal character. -/
def chr (c : Char) : RE := .sym (fun d => d == c)

/-- Literal string. -/
def lit (s : String) : RE := s.data.foldr (fun c r => .cat (chr c) r) .eps

/-- `r+` (greedy). -/
def rplus (r : RE) : RE := .cat r (.star r)

/-- Left-to-right concatenation of a pattern list. -/
def reCats (l : List RE) : RE := l.foldr .cat .eps

/-- Ordered alternation `a|b|c|…` (Python tries alternatives left to right). -/
def altChain : List RE → RE
  | [] => .eps
  | [r] => r
  | r :: rest => .alt r (altChain rest)

/-- Capture groups: `(group, start, end)` with the most recent capture first. -/
abbrev Caps := List (Nat × Nat × Nat)

/-- Backtracking matcher in continuation-passing style.  `pos` is an index
into `s`; the fuel only bounds recursion depth (it is ample for every
concrete run in this file) — on exhaustion the match fails. -/
def reRun (s : List Char) : Nat → RE → Nat → Caps →
    (Nat → Caps → Option (Nat × Caps)) → Option (Nat × Caps)
  | 0, _, _, _, _ => none
  | fuel+1, r, pos, caps, k =>
    match r with
    | .eps => k pos caps
    | .sym p =>
      match s[pos]? with
      | some c => if p c then k (pos+1) caps else none
      | none => none
    | .cat a b => reRun s fuel a pos caps (fun p2 c2 => reRun s fuel b p2 c2 k)
    | .alt a b =>
      match reRun s fuel a pos caps k with
      | some res => some res
      | none => reRun s fuel b pos caps k
    | .opt a =>
      match reRun s fuel a pos caps k with
      | some res => some res
      | none => k pos caps
    | .star a =>
      match reRun s fuel a pos caps
          (fun p2 c2 => if p2 == pos then none else reRun s fuel (.star a) p2 c2 k) with
      | some res => some res
      | none => k pos caps
    | .grp n a => reRun s fuel a pos caps (fun p2 c2 => k p2 ((n, pos, p2) :: c2))
    | .bol => if pos == 0 then k pos caps else none
    | .eol =>
      if pos == s.length then k pos caps
      else if pos + 1 == s.length && s[pos]? == some (Char.ofNat 10) then k pos caps
      else none

def reFuel : Nat := 1000

/-- `re.search` scanning from `pos` (leftmost match wins, like Python). -/
def reSearchFrom (s : List Char) (r : RE) : Nat → Nat → Option (Nat × Nat × Caps)
  | 0, _ => none
  | t+1, pos =>
    match reRun s reFuel r pos [] (fun p c => some (p, c)) with
    | some (e, caps) => some (pos, e, caps)
    | none =>
      if pos < s.length then reSearchFrom s r t (pos+1) else none

def reSearch (s : List Char) (r : RE) : Option (Nat × Nat × Caps) :=
  reSearchFrom s r (s.length + 1) 0

/-- Truthiness of `re.search(r, s)`. -/
def reTest (r : RE) (s : List Char) : Bool := (reSearch s r).isSome

/-- Truthiness of `re.match(r, s)` (anchored at position 0). -/
def reMatch0 (r : RE) (s : List Char) : Bool :=
  (reRun s reFuel r 0 [] (fun p c => some (p, c))).isSome

/-- One item of a `re.sub` replacement template: a literal piece or a
group reference `\n`. -/
inductive Tmpl where
  | lit : String → Tmpl
  | g : Nat → Tmpl

def capLookup (caps : Caps) (n : Nat) : Option (Nat × Nat) :=
  match caps.find? (fun t => t.1 == n) with
  | some (_, st, en) => some (st, en)
  | none => none

def sliceList (s : List Char) (st en : Nat) : List Char := (s.drop st).take (en - st)

def applyTmpl (s : List Char) (caps : Caps) : List Tmpl → List Char
  | [] => []
  | .lit t :: rest => t.data ++ applyTmpl s caps rest
  | .g n :: rest =>
    (match capLookup caps n with
     | some (st, en) => sliceList s st en
     | none => []) ++ applyTmpl s caps rest

/-- `re.sub`: scan left to right, replace non-overlapping matches,
continue after each match (advancing one character after an empty match,
as Python does). -/
def reSubFrom (s : List Char) (r : RE) (tmpl : List Tmpl) : Nat → Nat → List Char
  | 0, pos => s.drop pos
  | t+1, pos =>
    match reRun s reFuel r pos [] (fun p c => some (p, c)) with
    | some (e, caps) =>
      if e == pos then
        applyTmpl s caps tmpl ++
          (match s[pos]? with
           | some c => c :: reSubFrom s r tmpl t (pos+1)
           | none => [])
      else applyTmpl s caps tmpl ++ reSubFrom s r tmpl t e
    | none =>
      match s[pos]? with
      | some c => c :: reSubFrom s r tmpl t (pos+1)
      | none => []

def reSubAll (r : RE) (tmpl : List Tmpl) (s : List Char) : List Char :=
  reSubFrom s r tmpl (s.length + 1) 0

/-! ### The math classifier (`is_mathematical_expression`, source lines 17–25) -/

def clsSpace : RE := .sym isPySpace

def clsAlpha : RE := .sym isAsciiAlpha

def clsAlnum : RE := .sym isAsciiAlnum

def clsDigit : RE := .sym isAsciiDigit

/-- `[A-Za-z0-9{]` -/
def clsAlnumLB : RE := .sym (fun c => isAsciiAlnum c || c == '\x7b')

/-- `.` (any character but a newline). -/
def clsAny : RE := .sym (fun c => c.toNat != 10)

/-- `[+-]` -/
def clsPM : RE := .sym (fun c => c == '+' || c == '-')

/-- `\\frac\{[^}]+\}\{[^}]+\}` -/
def pComplex1 : RE :=
  reCats [lit "\\frac", chr '\x7b', rplus (.sym (fun c => c != '\x7d')), chr '\x7d',
          chr '\x7b', rplus (.sym (fun c => c != '\x7d')), chr '\x7d']

/-- `[A-Za-z]_[A-Za-z0-9{].*=.*\\frac` -/
def pComplex2 : RE :=
  reCats [clsAlpha, chr '_', clsAlnumLB, .star clsAny, chr '=', .star clsAny, lit "\\frac"]

/-- `[A-Za-z0-9]\^[A-Za-z0-9{].*=` -/
def pComplex3 : RE :=
  reCats [clsAlnum, chr '^', clsAlnumLB, .star clsAny, chr '=']

/-- `[A-Za-z]_[A-Za-z]+\s*=\s*[+-]?\s*\\frac` -/
def pComplex4 : RE :=
  reCats [clsAlpha, chr '_', rplus clsAlpha, .star clsSpace, chr '=', .star clsSpace,
          .opt clsPM, .star clsSpace, lit "\\frac"]

/-- `\/[A-Za-z0-9]+` -/
def pComplex5 : RE := reCats [chr '/', rplus clsAlnum]

/-- `[A-Za-z]_[A-Za-z0-9{]` -/
def pSimple1 : RE := reCats [clsAlpha, chr '_', clsAlnumLB]

/-- `[A-Za-z0-9]\^[A-Za-z0-9{]` -/
def pSimple2 : RE := reCats [clsAlnum, chr '^', clsAlnumLB]

/-- `[A-Za-z]\s*=\s*[^a-z]*[0-9]` -/
def pSimple3 : RE :=
  reCats [clsAlpha, .star clsSpace, chr '=', .star clsSpace,
          .star (.sym (fun c => !isAsciiLower c)), clsDigit]

/-- `\\[a-zA-Z]+` -/
def pSimple4 : RE := reCats [chr '\\', rplus clsAlpha]

/-- `\^[0-9]+` -/
def pSimple5 : RE := reCats [chr '^', rplus clsDigit]

/-- Result of the classifier: `'display'`, `'inline'` or `False`. -/
inductive MathClass where
  | display : MathClass
  | inline : MathClass
  | no : MathClass
deriving DecidableEq, Repr

/-- `is_mathematical_expression` (lines 17–25): complex patterns first
(→ display), then simple patterns (→ inline), else not math.  It is a
pure function of its input. -/
def is_mathematical_expression (text : String) : MathClass :=
  if text.data.isEmpty || (pyStripList text.data).length < 2 then .no
  else if [pComplex1, pComplex2, pComplex3, pComplex4, pComplex5].any
      (fun p => reTest p text.data) then .display
  else if [pSimple1, pSimple2, pSimple3, pSimple4, pSimple5].any
      (fun p => reTest p text.data) then .inline
  else .no

/-! ### The cleaner (`clean_math_expression`, source lines 27–56) -/

/-- `^`+|`+$` (line 29). -/
def pTicks : RE :=
  .alt (.cat .bol (rplus (chr '`'))) (.cat (rplus (chr '`')) .eol)

/-- `_\(\s*([^)]+)\s*\)` (line 30). -/
def pSub30 : RE :=
  reCats [chr '_', chr '(', .star clsSpace,
          .grp 1 (rplus (.sym (fun c => c != ')'))), .star clsSpace, chr ')']

/-- `_([A-Za-z]{2,})` (line 31; the replacement is the identity). -/
def pSub31 : RE := reCats [chr '_', .grp 1 (.cat clsAlpha (rplus clsAlpha))]

/-- `\^([A-Za-z0-9]{2,})` (line 32; identity replacement). -/
def pSub32 : RE := reCats [chr '^', .grp 1 (.cat clsAlnum (rplus clsAlnum))]

/-- `\^([+-]?\d+)` (line 33; identity replacement). -/
def pSub33 : RE := reCats [chr '^', .grp 1 (.cat (.opt clsPM) (rplus clsDigit))]

/-- `\^([+-]?[A-Za-z]+)` (line 34; identity replacement). -/
def pSub34 : RE := reCats [chr '^', .grp 1 (.cat (.opt clsPM) (rplus clsAlpha))]

/-- `([A-Za-z]+)\s*/\s*([A-Za-z]+-[A-Za-z]+)` (line 35). -/
def pSub35 : RE :=
  reCats [.grp 1 (rplus clsAlpha), .star clsSpace, chr '/', .star clsSpace,
          .grp 2 (reCats [rplus clsAlpha, chr '-', rplus clsAlpha])]

/-- `([A-Za-z]+)-([A-Za-z]+)` (line 36). -/
def pSub36 : RE := reCats [.grp 1 (rplus clsAlpha), chr '-', .grp 2 (rplus clsAlpha)]

/-- `(\d+\.\d+)\s*\\text\{([A-Za-z]+)\}/\\text\{([A-Za-z]+ \\cdot [A-Za-z]+)\}` (line 37). -/
def pSub37 : RE :=
  reCats [.grp 1 (reCats [rplus clsDigit, chr '.', rplus clsDigit]), .star clsSpace,
          lit "\\text", chr '\x7b', .grp 2 (rplus clsAlpha), chr '\x7d', chr '/',
          lit "\\text", chr '\x7b',
          .grp 3 (reCats [rplus clsAlpha, chr ' ', lit "\\cdot", chr ' ', rplus clsAlpha]),
          chr '\x7d']

/-- `([0-9])(Omega)` (line 40). -/
def pSub40 : RE := reCats [.grp 1 clsDigit, .grp 2 (lit "Omega")]

/-- `[0-9.]` -/
def clsDigitDot : RE := .sym (fun c => isAsciiDigit c || c == '.')

/-- `([0-9.]+)\s*(KN-m|KN|kN-m|kN|N-m|N)` (line 41). -/
def pSub41 : RE :=
  reCats [.grp 1 (rplus clsDigitDot), .star clsSpace,
          .grp 2 (altChain [lit "KN-m", lit "KN", lit "kN-m", lit "kN", lit "N-m", lit "N"])]

/-- `-\s*frac` (line 42). -/
def pSub42 : RE := reCats [chr '-', .star clsSpace, lit "frac"]

/-- `([A-Za-z0-9])\^([A-Za-z0-9]+)` (line 43; identity replacement). -/
def pSub43 : RE := reCats [.grp 1 clsAlnum, chr '^', .grp 2 (rplus clsAlnum)]

/-- `\(([^)]+)\)\s*/\s*(\d+)` (line 44). -/
def pSub44 : RE :=
  reCats [chr '(', .grp 1 (rplus (.sym (fun c => c != ')'))), chr ')',
          .star clsSpace, chr '/', .star clsSpace, .grp 2 (rplus clsDigit)]

/-- `([A-Za-z0-9]+)/([A-Za-z0-9]+)` (line 45). -/
def pSub45 : RE := reCats [.grp 1 (rplus clsAlnum), chr '/', .grp 2 (rplus clsAlnum)]

/-- `([A-Za-z]+[0-9]*)/([0-9]+)` (line 46). -/
def pSub46 : RE :=
  reCats [.grp 1 (.cat (rplus clsAlpha) (.star clsDigit)), chr '/', .grp 2 (rplus clsDigit)]

/-- `=\s*-\s*` (line 47). -/
def pSub47 : RE := reCats [chr '=', .star clsSpace, chr '-', .star clsSpace]

/-- `=\s*\+\s*` (line 48). -/
def pSub48 : RE := reCats [chr '=', .star clsSpace, chr '+', .star clsSpace]

/-- `(\d+(?:\.\d+)?)\s*([A-Za-z]+-[A-Za-z]+)` (line 49). -/
def pSub49 : RE :=
  reCats [.grp 1 (.cat (rplus clsDigit) (.opt (.cat (chr '.') (rplus clsDigit)))),
          .star clsSpace, .grp 2 (reCats [rplus clsAlpha, chr '-', rplus clsAlpha])]

/-- `(\d+(?:\.\d+)?)\s*(KN-m|kN-m|N-m)` (line 50). -/
def pSub50 : RE :=
  reCats [.grp 1 (.cat (rplus clsDigit) (.opt (.cat (chr '.') (rplus clsDigit)))),
          .star clsSpace, .grp 2 (altChain [lit "KN-m", lit "kN-m", lit "N-m"])]

/-- `\s+` (line 54). -/
def pWS : RE := rplus clsSpace

/-- `clean_math_expression` (lines 27–56), applying the source's regex
pipeline in order.  In the replacement templates for lines 41, 49, 50 the
source's raw replacement string is `\1 \text{\2}`, in which Python's
template processing turns `\t` into a literal TAB character — reproduced
below (the TAB is then collapsed by the final whitespace pass). -/
def cleanList (s0 : List Char) : List Char :=
  if s0.isEmpty || (pyStripList s0).isEmpty then [] else
  let s := pyStripList (reSubAll pTicks [] s0)
  let s := reSubAll pSub30 [.lit "_", .g 1] s
  let s := reSubAll pSub31 [.lit "_", .g 1] s
  let s := reSubAll pSub32 [.lit "^", .g 1] s
  let s := reSubAll pSub33 [.lit "^", .g 1] s
  let s := reSubAll pSub34 [.lit "^", .g 1] s
  let s := reSubAll pSub35 [.lit "\\text\x7b", .g 1, .lit "\x7d/\\text\x7b", .g 2, .lit "\x7d"] s
  let s := reSubAll pSub36 [.g 1, .lit " \\cdot ", .g 2] s
  let s := reSubAll pSub37 [.g 1, .lit " \\; \\frac\x7b\\text\x7b", .g 2,
                            .lit "\x7d\x7d\x7b\\text\x7b", .g 3, .lit "\x7d\x7d"] s
  let s := pyReplaceList "*".data "\\times".data s
  let s := pyReplaceList "×".data "\\times".data s
  let s := reSubAll pSub40 [.g 1, .lit " \\Omega"] s
  let s := reSubAll pSub41 [.g 1, .lit " \text\x7b", .g 2, .lit "\x7d"] s
  let s := reSubAll pSub42 [.lit "-frac"] s
  let s := reSubAll pSub43 [.g 1, .lit "^", .g 2] s
  let s := reSubAll pSub44 [.lit "frac\x7b", .g 1, .lit "\x7d\x7b", .g 2, .lit "\x7d"] s
  let s := reSubAll pSub45 [.lit "frac\x7b", .g 1, .lit "\x7d\x7b", .g 2, .lit "\x7d"] s
  let s := reSubAll pSub46 [.lit "frac\x7b", .g 1, .lit "\x7d\x7b", .g 2, .lit "\x7d"] s
  let s := reSubAll pSub47 [.lit " = -"] s
  let s := reSubAll pSub48 [.lit " = +"] s
  let s := reSubAll pSub49 [.g 1, .lit " \text\x7b", .g 2, .lit "\x7d"] s
  let s := reSubAll pSub50 [.g 1, .lit " \text\x7b", .g 2, .lit "\x7d"] s
  let s := if s.count '(' > s.count ')'
           then s ++ List.replicate (s.count '(' - s.count ')') ')' else s
  let s := pyReplaceList "Î»".data "lambda".data s
  let s := pyReplaceList "\\\\".data "\\".data s
  let s := pyReplaceList "(therefore)".data "therefore".data s
  let s := pyReplaceList "(sigma)".data "sigma".data s
  let s := pyReplaceList "(infty)".data "infty".data s
  let s := pyStripList (reSubAll pWS [.lit " "] s)
  if s.isEmpty || s = "\x7b\x7d".data then [] else s

def clean_math_expression (expr : String) : String := ⟨cleanList expr.data⟩

/-- `_convert_asciimath_to_latex_for_copy` (lines 1125–1132). -/
def pLatexSub : RE := reCats [chr '_', .grp 1 (rplus clsAlnum)]

def pLatexSup : RE := reCats [chr '^', .grp 1 (rplus clsAlnum)]

/-- `\(([A-Za-z]+)\)/\(([A-Za-z]+(?:-[A-Za-z]+)?)\)` (line 1130; identity replacement). -/
def pLatexParens : RE :=
  reCats [chr '(', .grp 1 (rplus clsAlpha), chr ')', chr '/',
          chr '(', .grp 2 (.cat (rplus clsAlpha) (.opt (.cat (chr '-') (rplus clsAlpha)))), chr ')']

def latexForCopyList (s0 : List Char) : List Char :=
  if s0.isEmpty then [] else
  let s := pyReplaceList "frac\x7b".data "\\frac\x7b".data s0
  let s := pyReplaceList " \times ".data "\\times ".data s
  let s := pyReplaceList "text\x7b".data "\\text\x7b".data s
  let s := reSubAll pLatexSub [.lit "_\x7b", .g 1, .lit "\x7d"] s
  let s := reSubAll pLatexSup [.lit "^\x7b", .g 1, .lit "\x7d"] s
  let s := reSubAll pLatexParens [.lit "(", .g 1, .lit ")/(", .g 2, .lit ")"] s
  let s := pyReplaceList "therefore".data "\\therefore".data s
  let s := pyReplaceList "sigma".data "\\sigma".data s
  let s := pyReplaceList "infty".data "\\infty".data s
  let s := pyReplaceList "lambda".data "\\lambda".data s
  s

def convertAsciimathToLatexForCopy (s : String) : String := ⟨latexForCopyList s.data⟩

/-! ### The content model

Blocks are dictionaries in the source; the model below carries exactly the
payload fields the renderers read.  A `none`/default field models a
missing key.  Payload kinds that the claims never construct (drawings,
circuits, code snippets, images, `MATH_IN_TEXT` expressions, accounting
entries) are not carried by the model; for every such block the source's
renderer returns the empty string when its payload is missing, which is
what the dispatcher below does. -/

/-- One inline node of rich editor content (`paragraph.content`).
`marks` holds the mark type strings in order. -/
inductive InlineItem where
  | text (s : String) (marks : List String)
  | inlineMath (s : String)
  | hardBreak
  | other (t : String)

mutual
/-- One node of `editorContentState.content`. -/
inductive ContentItem where
  | paragraph (content : List InlineItem)
  | bulletList (items : ListItemSeq)
  | orderedList (start : Nat) (items : ListItemSeq)
  | heading (level : Nat) (content : List InlineItem)
  | other (t : String)
/-- The `content` of a bullet/ordered list: its `listItem` children. -/
inductive ListItemSeq where
  | nil
  | cons (hd : ItemContentSeq) (tl : ListItemSeq)
/-- The `content` of one `listItem`. -/
inductive ItemContentSeq where
  | nil
  | cons (hd : ContentItem) (tl : ItemContentSeq)
end

def ListItemSeq.isNil : ListItemSeq → Bool
  | .nil => true
  | .cons _ _ => false

mutual
/-- One node of a generic-table cell's rich `value` tree. -/
inductive CellNode where
  | text (s : String)
  | paragraph (textAlign : Option String) (content : CellNodeSeq)
  | node (content : CellNodeSeq)
inductive CellNodeSeq where
  | nil
  | cons (hd : CellNode) (tl : CellNodeSeq)
end

/-- A table cell's `value`: a typed rich-content dict, a plain string, or
missing/falsy. -/
inductive CellValue where
  | obj (content : CellNodeSeq)
  | str (s : String)
  | empty

/-- One line of an `EQUATION_RENDERER` block. -/
structure EqLine where
  left : String
  operator : String
  right : String

/-- `block.block` of a generic TABLE block, with `"r-c"` keys parsed into
pairs. -/
structure TableBlock where
  cells : List ((Nat × Nat) × CellValue)
  rows : Nat
  columns : Nat
  rowSpans : List ((Nat × Nat) × Nat)
  columnSpans : List ((Nat × Nat) × Nat)

/-- A Block dictionary (type tag plus the payload fields read by the
renderers; a default field value models a missing key). -/
structure Block where
  type : String
  label : Option String := none
  editorContent : List ContentItem := []
  contentText : String := ""
  lines : List EqLine := []
  htmlContent : String := ""
  table : Option TableBlock := none

structure Step where
  title : String := ""
  blocks : List Block := []

/-- The canonical Document shape consumed by the orchestrator and the
text exporter (`stepByStep.steps`, `finalAnswer.blocks`, `blocks`). -/
structure Document where
  steps : List Step := []
  finalBlocks : List Block := []
  topBlocks : List Block := []

/-- Python-dict lookup in an association list (keys unique in every
payload considered here). -/
def dictLookup (l : List ((Nat × Nat) × α)) (k : Nat × Nat) : Option α :=
  match l.find? (fun e => e.1 == k) with
  | some e => some e.2
  | none => none

/-! ### Inline rendering (`process_paragraph` / `process_heading`, lines 665–803) -/

/-- The `text`-run branch of `process_paragraph` (lines 682–698): prose is
HTML-escaped, math is cleaned; a math run whose cleaned form is empty is
skipped (`none`). -/
def renderTextRun (mode : String) (raw : String) : Option String :=
  match is_mathematical_expression raw with
  | .no => some (pyHtmlEscape raw)
  | mt =>
    let cleaned := clean_math_expression raw
    if cleaned = "" then none
    else if mode = "display" then
      if mt = .display then some ("<span class=\"equation-line\">`" ++ cleaned ++ "`</span>")
      else some ("`" ++ cleaned ++ "`")
    else some ("<span data-math-type=\"mhchem\">" ++ cleaned ++ "</span>")

/-- Marks applied in order, `bold`/`italic`/`code` (lines 699–703). -/
def applyMarks (marks : List String) (t : String) : String :=
  marks.foldl (fun t m =>
    if m = "bold" then "<strong>" ++ t ++ "</strong>"
    else if m = "italic" then "<i>" ++ t ++ "</i>"
    else if m = "code" then "<code>" ++ t ++ "</code>"
    else t) t

/-- `process_paragraph` (lines 675–727). -/
def processParagraph (mode : String) (content : List InlineItem) : String :=
  if content.isEmpty then "" else
  let r := content.foldl (fun (acc : String × Bool) item =>
    match item with
    | .text raw marks =>
      if pyStrip raw = "" || pyStrip raw = "\x7b\x7d" then acc
      else
        match renderTextRun mode raw with
        | none => acc
        | some t => (acc.1 ++ applyMarks marks t, true)
    | .inlineMath m0 =>
      let mt := clean_math_expression m0
      if mt = "" then acc
      else
        let mc := is_mathematical_expression mt
        let piece :=
          if mode = "display" then
            if mc = .display then "<span class=\"equation-line\">`" ++ mt ++ "`</span>"
            else "`" ++ mt ++ "`"
          else "<span data-math-type=\"mhchem\">" ++ mt ++ "</span>"
        (acc.1 ++ piece, true)
    | .hardBreak => (acc.1 ++ "<br>", true)
    | .other _ => acc) ("<p>", false)
  if r.2 then r.1 ++ "</p>" else ""

/-- `process_heading` (lines 776–803); only the `bold` mark is honoured. -/
def processHeading (mode : String) (level : Nat) (content : List InlineItem) : String :=
  let h := content.foldl (fun acc item =>
    match item with
    | .text raw marks =>
      if pyStrip raw = "" || pyStrip raw = "\x7b\x7d" then acc
      else
        match renderTextRun mode raw with
        | none => acc
        | some t =>
          acc ++ marks.foldl (fun t m => if m = "bold" then "<strong>" ++ t ++ "</strong>" else t) t
    | _ => acc) ""
  if h ≠ "" then "<h" ++ toString level ++ ">" ++ h ++ "</h" ++ toString level ++ ">" else ""

mutual
/-- `process_content_item` (lines 665–673): type dispatch.  The bullet-
and ordered-list bodies (lines 729–774) are inlined here at indent 0 so
that the recursion is structural; the standalone `processBulletList` /
`processOrderedList` below are the same code and agree definitionally. -/
def processContentItem (mode : String) : ContentItem → String
  | .paragraph c => processParagraph mode c
  | .bulletList items =>
    if items.isNil then ""
    else
      let r := processListItems mode items
      if r.2 then "<ul class=\"\">" ++ r.1 ++ "</ul>" else ""
  | .orderedList _ items =>
    if items.isNil then ""
    else
      let r := processListItems mode items
      if r.2 then "<ul class=\"\">" ++ r.1 ++ "</ol>" else ""
  | .heading lv c => processHeading mode lv c
  | .other _ => ""
/-- The shared `listItem` loop of both list renderers (lines 735–747 /
759–771): an item is included only when some child rendered non-blank. -/
def processListItems (mode : String) : ListItemSeq → String × Bool
  | .nil => ("", false)
  | .cons ic tl =>
    let one := processOneItem mode ic
    let rest := processListItems mode tl
    if one.2 then ("<li>" ++ one.1 ++ "</li>" ++ rest.1, true) else rest
/-- The inner loop over one `listItem`'s content (lines 739–743). -/
def processOneItem (mode : String) : ItemContentSeq → String × Bool
  | .nil => ("", false)
  | .cons ci tl =>
    let p := processContentItem mode ci
    let rest := processOneItem mode tl
    if pyStrip p ≠ "" then (p ++ rest.1, true) else rest
end

/-- `process_bullet_list` (lines 729–750). -/
def processBulletList (mode : String) (indent : Nat) (items : ListItemSeq) : String :=
  if items.isNil then ""
  else
    let r := processListItems mode items
    if r.2 then
      "<ul class=\"" ++ (if indent > 0 then "nested-list-" ++ toString indent else "") ++ "\">" ++
        r.1 ++ "</ul>"
    else ""

/-- `process_ordered_list` (lines 752–774).  The `start` attribute is read
by the source (line 756) but never used, and the element is opened with
`<ul>` yet closed with `</ol>` — both reproduced faithfully. -/
def processOrderedList (mode : String) (indent : Nat) (start : Nat) (items : ListItemSeq) :
    String :=
  if items.isNil then ""
  else
    let r := processListItems mode items
    if r.2 then
      "<ul class=\"" ++ (if indent > 0 then "nested-list-" ++ toString indent else "") ++ "\">" ++
        r.1 ++ "</ol>"
    else ""

/-- `process_content_item` calls the list renderers at indent 0
(lines 669–670). -/
theorem processContentItem_orderedList (mode : String) (start : Nat) (items : ListItemSeq) :
    processContentItem mode (.orderedList start items) =
      processOrderedList mode 0 start items := by
  cases items <;> rfl

theorem processContentItem_bulletList (mode : String) (items : ListItemSeq) :
    processContentItem mode (.bulletList items) = processBulletList mode 0 items := by
  cases items <;> rfl

/-! ### Text / equation / list blocks (lines 301–361) -/

/-- `_process_text_block` (lines 301–320).  When the editor content is
empty the source falls back to `content.text`, or to `str(content)` when
that is falsy — for the empty content dict this yields the string `"{}"`,
which the blank filter rejects. -/
def processTextBlock (mode : String) (btype : String) (b : Block) : String :=
  let fallback := if b.contentText = "" then "\x7b\x7d" else b.contentText
  let ec :=
    if b.editorContent.isEmpty then
      if pyStrip fallback = "" ∨ pyStrip fallback = "\x7b\x7d" then none
      else some [ContentItem.paragraph [.text fallback []]]
    else some b.editorContent
  match ec with
  | none => ""
  | some editorContent =>
    let hasContent := editorContent.any (fun item =>
      match item with
      | .paragraph c =>
        !c.isEmpty && c.any (fun ci =>
          match ci with
          | .text t _ => pyStrip t ≠ "" && pyStrip t ≠ "\x7b\x7d"
          | _ => false)
      | .bulletList items => !items.isNil
      | .orderedList _ items => !items.isNil
      | _ => false)
    if !hasContent then ""
    else
      let header :=
        if btype = "EXPLANATION" then
          "<div class=\"explanation-block\"><h2>" ++ pyHtmlEscape (b.label.getD "Explanation") ++
            "</h2>"
        else ""
      let body := editorContent.foldl (fun acc item =>
        let p := processContentItem mode item
        if pyStrip p ≠ "" then acc ++ p else acc) header
      let body := if btype = "EXPLANATION" ∧ pyStrip body ≠ "" then body ++ "</div>" else body
      if pyStrip body ≠ "" then body else ""

/-- `_process_list_block` (lines 322–328). -/
def processListBlock (mode : String) (b : Block) : String :=
  b.editorContent.foldl (fun acc item =>
    let p := processContentItem mode item
    if pyStrip p ≠ "" then acc ++ p else acc) ""

/-- `process_equation_block` (lines 348–361): join `left operator right`,
clean, and wrap per line. -/
def processEquationBlock (mode : String) (b : Block) : String :=
  let h := b.lines.foldl (fun acc eqn =>
    let cl := clean_math_expression (eqn.left ++ " " ++ eqn.operator ++ " " ++ eqn.right)
    if cl = "" then acc
    else if mode = "display" then
      acc ++ "<span class=\"equation-line\">`" ++ cl ++ "`</span>"
    else acc ++ "<p><span data-math-type=\"mhchem\">" ++ cl ++ "</span></p>") ""
  if pyStrip h ≠ "" then h else ""

/-! ### The generic table renderer (`process_generic_table`, lines 559–663) -/

mutual
/-- `_extract_cell_data`'s recursion (lines 427–439), threading the
accumulated text and the alignment (last `center`/`right` paragraph wins). -/
def extractCellNode : CellNode → String × String → String × String
  | .text s, acc => (acc.1 ++ s, acc.2)
  | .paragraph al cs, acc =>
    let a2 := match al with
      | some x => if x = "center" || x = "right" then x else acc.2
      | none => acc.2
    extractCellSeq cs (acc.1, a2)
  | .node cs, acc => extractCellSeq cs acc
def extractCellSeq : CellNodeSeq → String × String → String × String
  | .nil, acc => acc
  | .cons n tl, acc => extractCellSeq tl (extractCellNode n acc)
end

/-- `_extract_cell_data` (lines 416–446): non-dict values yield
`("", "left")`. -/
def extractCellData : CellValue → String × String
  | .obj cs => extractCellSeq cs ("", "left")
  | .str _ => ("", "left")
  | .empty => ("", "left")

/-- The transposition of the cell keys (lines 575–584). -/
def correctedCells (t : TableBlock) : List ((Nat × Nat) × CellValue) :=
  t.cells.map (fun e => ((e.1.2, e.1.1), e.2))

/-- The max-key scan (lines 592–599). -/
def maxKeyRC (cs : List ((Nat × Nat) × CellValue)) : Nat × Nat :=
  cs.foldl (fun (m : Nat × Nat) e => (max m.1 e.1.1, max m.2 e.1.2)) (0, 0)

/-- The derived row count `max_row + 1` (line 601). -/
def derivedRows (t : TableBlock) : Nat := (maxKeyRC (correctedCells t)).1 + 1

/-- The derived column count `max_col + 1` (line 602). -/
def derivedCols (t : TableBlock) : Nat := (maxKeyRC (correctedCells t)).2 + 1

/-- Row span at a (transposed) key, default 1 (line 631). -/
def rsAt (t : TableBlock) (p : Nat × Nat) : Nat := (dictLookup t.rowSpans p).getD 1

/-- Column span at a (transposed) key, default 1 (line 632). -/
def csAt (t : TableBlock) (p : Nat × Nat) : Nat := (dictLookup t.columnSpans p).getD 1

/-- The positions marked in the shadow grid for a cell at `p` with spans
`rs`/`cs`, clipped to the grid (lines 634–637). -/
def spanMarks (rs cs : Nat) (p : Nat × Nat) (R C : Nat) : List (Nat × Nat) :=
  ((List.range rs).flatMap (fun i => (List.range cs).map (fun j => (p.1 + i, p.2 + j)))).filter
    (fun q => q.1 < R && q.2 < C)

/-- Row-major traversal order of the grid (lines 611/619). -/
def rowMajor (R C : Nat) : List (Nat × Nat) :=
  (List.range R).flatMap (fun r => (List.range C).map (fun c => (r, c)))

/-- The emission loop of `process_generic_table` (lines 611–648) reduced
to its cell decisions: positions already consumed by a span are skipped,
a present cell is emitted (with its extracted text) and marks its span
area in the shadow grid, and a missing cell emits an empty `<td>`. -/
def shadowWalk (cellAt : Nat × Nat → Option CellValue) (rsF csF : Nat × Nat → Nat) (R C : Nat) :
    List (Nat × Nat) → List (Nat × Nat) → List ((Nat × Nat) × String)
  | [], _ => []
  | p :: ps, shadow =>
    if p ∈ shadow then shadowWalk cellAt rsF csF R C ps shadow
    else
      match cellAt p with
      | some v =>
        (p, (extractCellData v).1) ::
          shadowWalk cellAt rsF csF R C ps (shadow ++ spanMarks (rsF p) (csF p) p R C)
      | none => (p, "") :: shadowWalk cellAt rsF csF R C ps shadow

/-- The table cells `process_generic_table` emits (one entry per `<th>` or
`<td>` written by the loop, at its origin, with its content text). -/
def genericTableEmittedCells (t : TableBlock) : List ((Nat × Nat) × String) :=
  let cs := correctedCells t
  if cs.isEmpty then []
  else
    shadowWalk (fun p => dictLookup cs p) (fun p => rsAt t p) (fun p => csAt t p)
      (derivedRows t) (derivedCols t) (rowMajor (derivedRows t) (derivedCols t)) []

/-- The grid of cell contents emitted by the HTML renderer, row by row. -/
def genericTableGrid (t : TableBlock) : List (List String) :=
  (List.range (derivedRows t)).map (fun r =>
    (genericTableEmittedCells t).filterMap (fun e => if e.1.1 = r then some e.2 else none))

/-- Number of table cells emitted by `process_generic_table` (each
spanned cell counted once, at its origin). -/
def genericTableCellCount (t : TableBlock) : Nat := (genericTableEmittedCells t).length

/-- The claim's span budget: `Σ (span_area − 1)` over all cells (a cell
without a declared span has area 1 and contributes 0). -/
def spanExcess (t : TableBlock) : Nat :=
  ((correctedCells t).map (fun e => rsAt t e.1 * csAt t e.1 - 1)).sum

/-- The full HTML string of `process_generic_table` (lines 559–663),
including `thead`/`tbody` placement and the `has_content` suppression. -/
def genericTableHtmlCellPiece (r : Nat) (rowspan colspan : Nat) (content align : String) : String :=
  let tag := if r = 0 then "th" else "td"
  "<" ++ tag ++
    (if rowspan > 1 then " rowspan=\"" ++ toString rowspan ++ "\"" else "") ++
    (if colspan > 1 then " colspan=\"" ++ toString colspan ++ "\"" else "") ++
    " style=\"text-align: " ++ align ++ "; padding: 8px; border: 1px solid #dee2e6;\">" ++
    content ++ "</" ++ tag ++ ">"

def genericTableCellLoop (cellAt : Nat × Nat → Option CellValue) (rsF csF : Nat × Nat → Nat)
    (R C : Nat) (r : Nat) :
    List Nat → List (Nat × Nat) → Bool → String × List (Nat × Nat) × Bool
  | [], shadow, hasC => ("", shadow, hasC)
  | c :: cs, shadow, hasC =>
    if (r, c) ∈ shadow then genericTableCellLoop cellAt rsF csF R C r cs shadow hasC
    else
      match cellAt (r, c) with
      | some v =>
        let ex := extractCellData v
        let hasC := hasC || pyStrip ex.1 ≠ ""
        let rowspan := rsF (r, c)
        let colspan := csF (r, c)
        let shadow := shadow ++ spanMarks rowspan colspan (r, c) R C
        let rest := genericTableCellLoop cellAt rsF csF R C r cs shadow hasC
        (genericTableHtmlCellPiece r rowspan colspan ex.1 ex.2 ++ rest.1, rest.2)
      | none =>
        let rest := genericTableCellLoop cellAt rsF csF R C r cs shadow hasC
        ("<td></td>" ++ rest.1, rest.2)

def genericTableRowLoop (cellAt : Nat × Nat → Option CellValue) (rsF csF : Nat × Nat → Nat)
    (R C : Nat) : List Nat → List (Nat × Nat) → Bool → String × Bool
  | [], _, hasC => ("", hasC)
  | r :: rs, shadow, hasC =>
    let cellsOut := genericTableCellLoop cellAt rsF csF R C r (List.range C) shadow hasC
    let rowStr :=
      (if r = 0 then "<thead>" else if r = 1 then "<tbody>" else "") ++
      "<tr class=\"table-row row-" ++ toString r ++ "\">" ++ cellsOut.1 ++ "</tr>" ++
      (if r = 0 then "</thead>" else "")
    let rest := genericTableRowLoop cellAt rsF csF R C rs cellsOut.2.1 cellsOut.2.2
    (rowStr ++ rest.1, rest.2)

def genericTableHtml (t : TableBlock) : String :=
  let cs := correctedCells t
  if cs.isEmpty then ""
  else
    let R := derivedRows t
    let C := derivedCols t
    let body := genericTableRowLoop (fun p => dictLookup cs p) (fun p => rsAt t p)
      (fun p => csAt t p) R C (List.range R) [] false
    let html := "<div class=\"table-container\"><table class=\"data-table generic-table\">" ++
      body.1 ++ (if R > 1 then "</tbody>" else "") ++ "</table></div>"
    if body.2 then html else ""

/-- `process_generic_table` (lines 559–663): a missing `block` payload
renders to the empty string (line 566). -/
def process_generic_table (mode : String) (b : Block) : String :=
  match b.table with
  | none => ""
  | some t => genericTableHtml t

/-! ### Block dispatch and the document orchestrator -/

/-- `process_block_enhanced` (lines 202–220).  For block kinds whose
payload the model does not carry the source renders the empty string on
the model's (payload-free) blocks: ACCOUNTING_TABLE without entries
(line 453), DRAWING without viewBox/shapes (895–897), CIRCUIT without
settings/shapes (245–247), CODE_SNIPPET without content (332–333),
IMAGE_UPLOAD without a path (342–343), MATH_IN_TEXT without
title/expression/result (269–296).  Any other type falls through to the
final `return ""` (line 217). -/
def process_block_enhanced (mode : String) (b : Block) : String :=
  if b.type = "TEXT" ∨ b.type = "EXPLANATION" then processTextBlock mode b.type b
  else if b.type = "EQUATION_RENDERER" then processEquationBlock mode b
  else if b.type = "ACCOUNTING_TABLE" then ""
  else if b.type = "TABLE" then process_generic_table mode b
  else if b.type = "DRAWING" then ""
  else if b.type = "CIRCUIT" then ""
  else if b.type = "LIST" then processListBlock mode b
  else if b.type = "HTML" then (if pyStrip b.htmlContent ≠ "" then b.htmlContent else "")
  else if b.type = "CODE_SNIPPET" then ""
  else if b.type = "IMAGE_UPLOAD" then ""
  else if b.type = "MATH_IN_TEXT" then ""
  else ""

/-- The block-accumulation loop shared by the step, final-answer and
top-level sections (lines 860–862, 870–872, 875–877): a processed block
is appended only when it is not blank; a failing or empty block
contributes nothing and its siblings still contribute. -/
def blocksHtml (mode : String) (bs : List Block) : String :=
  bs.foldl (fun acc b =>
    let p := process_block_enhanced mode b
    if pyStrip p ≠ "" then acc ++ p else acc) ""

/-- One step's contribution to the HTML document (lines 855–867): a step
with no blocks is skipped outright; a step whose blocks all render blank
emits nothing — in particular no header; otherwise the header uses the
step's absolute position `i+1` and the full step count `total`. -/
def stepContribution (mode : String) (total : Nat) (i : Nat) (st : Step) : String :=
  if st.blocks.isEmpty then ""
  else
    let body := blocksHtml mode st.blocks
    if body ≠ "" then
      "<div class=\"step-header\">Step " ++ toString (i + 1) ++ " of " ++ toString total ++
        (if pyStrip st.title ≠ "" then ": " ++ pyHtmlEscape (pyStrip st.title) else "") ++
        "</div>" ++ body
    else ""

/-- `process_sqna_content_for_html` (lines 851–879). -/
def process_sqna_content_for_html (mode : String) (doc : Document) : String :=
  let stepsPart := String.join ((doc.steps.enum).map (fun e =>
    stepContribution mode doc.steps.length e.1 e.2))
  let fa := blocksHtml mode doc.finalBlocks
  let finalPart :=
    if pyStrip fa ≠ "" then
      "<div class=\"final-answer\"><h3>Final Answer</h3>" ++ fa ++ "</div>"
    else ""
  stepsPart ++ finalPart ++ blocksHtml mode doc.topBlocks

/-! ### Cell alignment classification (`determine_cell_alignment`, lines 363–414) -/

/-- Substring test (Python `in`). -/
def containsSub (hay needle : List Char) : Bool :=
  match hay with
  | [] => needle.isEmpty
  | _ :: rest => needle.isPrefixOf hay || containsSub rest needle

def strContainsSub (hay needle : String) : Bool := containsSub hay.data needle.data

/-- Non-overlapping occurrence count of `pat` in a string. -/
def countOccurAux (pat : List Char) : Nat → List Char → Nat
  | 0, _ => 0
  | _, [] => 0
  | t+1, c :: rest =>
    if !pat.isEmpty && pat.isPrefixOf (c :: rest) then
      1 + countOccurAux pat t ((c :: rest).drop pat.length)
    else countOccurAux pat t rest

def countSubstr (hay pat : String) : Nat := countOccurAux pat.data hay.data.length hay.data

/-- `\d{1,3}` -/
def pD13 : RE := .cat clsDigit (.opt (.cat clsDigit (.opt clsDigit)))

/-- `^[\$\¢\£\¥\€]?[-]?\s*\d{1,3}(?:,\d{3})*(?:\.\d{2})?$` (line 396). -/
def pCurrency : RE :=
  reCats [.opt (.sym (fun c => c == '$' || c == '¢' || c == '£' || c == '¥' || c == '€')),
          .opt (chr '-'), .star clsSpace, pD13,
          .star (reCats [chr ',', clsDigit, clsDigit, clsDigit]),
          .opt (reCats [chr '.', clsDigit, clsDigit]), .eol]

/-- `^\d+(?:\.\d+)?%$` (line 398). -/
def pPercent : RE :=
  reCats [rplus clsDigit, .opt (.cat (chr '.') (rplus clsDigit)), chr '%', .eol]

/-- `^[-]?\d{1,3}(?:,\d{3})*(?:\.\d+)?$` (line 400). -/
def pNumberAnch : RE :=
  reCats [.opt (chr '-'), pD13, .star (reCats [chr ',', clsDigit, clsDigit, clsDigit]),
          .opt (.cat (chr '.') (rplus clsDigit)), .eol]

/-- `^\d{1,2}[\/\-]\d{1,2}[\/\-]\d{2,4}$` (line 402). -/
def pDateAnch : RE :=
  reCats [clsDigit, .opt clsDigit, .sym (fun c => c == '/' || c == '-'),
          clsDigit, .opt clsDigit, .sym (fun c => c == '/' || c == '-'),
          clsDigit, clsDigit, .opt clsDigit, .opt clsDigit, .eol]

def headerKeywords : List String :=
  ["date", "account", "name", "debit", "credit", "transaction", "amount",
   "description", "category", "effect", "liabilities", "assets", "equity"]

/-- The first valid text of one paragraph's content (lines 373–378). -/
def dcaScanPara : CellNodeSeq → String
  | .nil => ""
  | .cons (.text t) tl =>
    let s := pyStrip t
    if s ≠ "" && s ≠ "\x7b\x7d" then s else dcaScanPara tl
  | .cons _ tl => dcaScanPara tl

/-- The first valid text over the paragraphs of a `doc` value (lines 369–380). -/
def dcaScanNodes : CellNodeSeq → String
  | .nil => ""
  | .cons (.paragraph _ cs) tl =>
    let c := dcaScanPara cs
    if c ≠ "" then c else dcaScanNodes tl
  | .cons _ tl => dcaScanNodes tl

/-- The `content` string `determine_cell_alignment` extracts (lines
366–382); `.obj` models a dict whose `type` is `doc`. -/
def dcaContent : CellValue → String
  | .obj cs => dcaScanNodes cs
  | .str s => pyStrip s
  | .empty => ""

/-- `determine_cell_alignment` (lines 363–414): the math rule runs before
the currency/percentage/number/date/keyword rules. -/
def determine_cell_alignment (mode : String) (v : CellValue) : String × String :=
  let content := dcaContent v
  if content = "" ∨ content = "\x7b\x7d" then ("", "left")
  else if is_mathematical_expression content ≠ .no ∧ clean_math_expression content ≠ "" then
    let cm := clean_math_expression content
    if mode = "display" then ("<span class=\"equation-line\">`" ++ cm ++ "`</span>", "center")
    else ("<span data-math-type=\"mhchem\">" ++ cm ++ "</span>", "center")
  else if reMatch0 pCurrency content.data then (pyHtmlEscape content, "right")
  else if reMatch0 pPercent content.data then (pyHtmlEscape content, "right")
  else if reMatch0 pNumberAnch content.data then (pyHtmlEscape content, "right")
  else if reMatch0 pDateAnch content.data then (pyHtmlEscape content, "center")
  else if headerKeywords.any (fun kw => containsSub (pyLowerList content.data) kw.data) then
    (pyHtmlEscape content, "center")
  else (pyHtmlEscape content, "left")

/-! ### The plain-text/LaTeX exporter (`_convert_answer_to_clean_text`,
lines 1134–1366) -/

/-- `"  " * indent`. -/
def indentStr (n : Nat) : String := String.join (List.replicate n "  ")

/-- Markdown marks, `bold`/`italic`/`code` in order (lines 1159–1165). -/
def textApplyMarks (marks : List String) (t : String) : String :=
  marks.foldl (fun t m =>
    if m = "bold" then "**" ++ t ++ "**"
    else if m = "italic" then "*" ++ t ++ "*"
    else if m = "code" then "`" ++ t ++ "`"
    else t) t

/-- The paragraph accumulation of the exporter's `process_content_item`
(lines 1143–1176): math runs become `$…$`/`$$…$$` in LaTeX-for-copy form. -/
def textParagraphText (content : List InlineItem) : String :=
  content.foldl (fun acc item =>
    match item with
    | .text raw marks =>
      if pyStrip raw = "" || pyStrip raw = "\x7b\x7d" then acc
      else
        let t := match is_mathematical_expression raw with
          | .no => raw
          | .display => "$$" ++ convertAsciimathToLatexForCopy (clean_math_expression raw) ++ "$$"
          | .inline => "$" ++ convertAsciimathToLatexForCopy (clean_math_expression raw) ++ "$"
        acc ++ textApplyMarks marks t
    | .inlineMath m0 =>
      acc ++ "$" ++ convertAsciimathToLatexForCopy (clean_math_expression m0) ++ "$"
    | .hardBreak => acc ++ "\n"
    | .other _ => acc) ""

/-- The heading accumulation (lines 1193–1212); only `bold` is honoured
and math is always wrapped inline. -/
def textHeadingText (content : List InlineItem) : String :=
  content.foldl (fun acc item =>
    match item with
    | .text raw marks =>
      if pyStrip raw = "" || pyStrip raw = "\x7b\x7d" then acc
      else
        let t :=
          if is_mathematical_expression raw ≠ .no then
            "$" ++ convertAsciimathToLatexForCopy (clean_math_expression raw) ++ "$"
          else raw
        acc ++ marks.foldl (fun t m => if m = "bold" then "**" ++ t ++ "**" else t) t
    | _ => acc) ""

mutual
/-- The exporter's `process_content_item` (lines 1141–1214). -/
def textCI (indent : Nat) : ContentItem → String
  | .paragraph c =>
    let pt := textParagraphText c
    if pt ≠ "" then indentStr indent ++ pt else ""
  | .bulletList items => String.intercalate "\n" (textListGo true indent 0 items)
  | .orderedList _ items => String.intercalate "\n" (textListGo false indent 0 items)
  | .heading lv c =>
    let ht := textHeadingText c
    if ht ≠ "" then indentStr indent ++ String.mk (List.replicate lv '#') ++ " " ++ ht else ""
  | .other _ => ""
/-- The list-item loop (lines 1181–1191); the ordinal prefix counts only
the items that produced text (`len(list_items) + 1`). -/
def textListGo (isBullet : Bool) (indent cnt : Nat) : ListItemSeq → List String
  | .nil => []
  | .cons ic tl =>
    let itemText := textOneItem ic
    if itemText ≠ "" then
      (indentStr indent ++ (if isBullet then "• " else toString (cnt + 1) ++ ". ") ++ itemText) ::
        textListGo isBullet indent (cnt + 1) tl
    else textListGo isBullet indent cnt tl
/-- The loop over one list item's content: truthy sub-results are
appended stripped (line 1187). -/
def textOneItem : ItemContentSeq → String
  | .nil => ""
  | .cons ci tl =>
    let sub := textCI 0 ci
    (if sub ≠ "" then pyStrip sub else "") ++ textOneItem tl
end

/-- The cell text the exporter's TABLE branches read:
`value.get('content',[{}])[0].get('content',[{}])[0].get('text','')` for
typed dict values, `str(value)` for truthy non-dict values (lines
1319–1322). -/
def textCellContent : CellValue → String
  | .obj cs =>
    match cs with
    | .nil => ""
    | .cons n _ =>
      match n with
      | .text _ => ""
      | .paragraph _ cs2 =>
        (match cs2 with
         | .nil => ""
         | .cons (.text s) _ => s
         | .cons _ _ => "")
      | .node cs2 =>
        (match cs2 with
         | .nil => ""
         | .cons (.text s) _ => s
         | .cons _ _ => "")
  | .str s => s
  | .empty => ""

/-- One row of the exporter's TABLE grid (lines 1312–1329): raw keys, the
declared `columns` count, and math cells wrapped in `$…$`. -/
def textTableRow (t : TableBlock) (r : Nat) : List String :=
  (List.range t.columns).map (fun c =>
    let content := match dictLookup t.cells (r, c) with
      | some v => textCellContent v
      | none => ""
    if content ≠ "" ∧ is_mathematical_expression content ≠ .no then
      "$" ++ convertAsciimathToLatexForCopy (clean_math_expression content) ++ "$"
    else content)

/-- The exporter's TABLE grid: declared `rows × columns`, untransposed. -/
def textTableGrid (t : TableBlock) : List (List String) :=
  (List.range t.rows).map (fun r => textTableRow t r)

/-- The lines the exporter's TABLE branch appends (lines 1307–1333): one
pipe row per declared row, plus a `---` separator after row 0. -/
def textTableLines (t : TableBlock) : List String :=
  (List.range t.rows).flatMap (fun r =>
    let line := "| " ++ String.intercalate " | " (textTableRow t r) ++ " |"
    if r = 0 then
      [line, "| " ++ String.intercalate " | " (List.replicate t.columns "---") ++ " |"]
    else [line])

/-- The lines `process_block` (exporter, lines 1216–1333) appends for one
block.  CODE_SNIPPET and ACCOUNTING_TABLE payloads are not carried by the
model, so those branches append nothing (empty code text, line 1237;
empty entry list, line 1249). -/
def textExportBlock (b : Block) : List String :=
  if b.type = "TEXT" ∨ b.type = "EXPLANATION" then
    (match b.label with
     | some l => if l ≠ "" then ["**" ++ l ++ "**"] else []
     | none => []) ++
    b.editorContent.filterMap (fun item =>
      let r := textCI 0 item
      if r ≠ "" then some r else none)
  else if b.type = "EQUATION_RENDERER" then
    b.lines.filterMap (fun eqn =>
      let lx := convertAsciimathToLatexForCopy
        (clean_math_expression (eqn.left ++ " " ++ eqn.operator ++ " " ++ eqn.right))
      if lx ≠ "" then some ("$$" ++ lx ++ "$$") else none)
  else if b.type = "CODE_SNIPPET" then []
  else if b.type = "LIST" then
    b.editorContent.filterMap (fun item =>
      let r := textCI 0 item
      if r ≠ "" then some r else none)
  else if b.type = "ACCOUNTING_TABLE" then []
  else if b.type = "TABLE" then
    (match b.table with
     | some t => textTableLines t
     | none => [])
  else []

/-- `_convert_answer_to_clean_text` (lines 1134–1366): step headers
`**Step i[: title]**`, the final-answer banner, top-level blocks only
when neither structure is present, and blank lines dropped at the join. -/
def convertAnswerToCleanText (doc : Document) : String :=
  let stepLines :=
    if !doc.steps.isEmpty then
      (doc.steps.enum).flatMap (fun e =>
        let title := pyStrip e.2.title
        let hdr := "**Step " ++ toString (e.1 + 1) ++
          (if title ≠ "" then ": " ++ title else "") ++ "**"
        (hdr :: e.2.blocks.flatMap textExportBlock) ++ [""])
    else []
  let finalLines :=
    if !doc.finalBlocks.isEmpty then "**Final Answer**" :: doc.finalBlocks.flatMap textExportBlock
    else []
  let topLines :=
    if doc.steps.isEmpty && doc.finalBlocks.isEmpty then doc.topBlocks.flatMap textExportBlock
    else []
  String.intercalate "\n"
    ((stepLines ++ finalLines ++ topLines).filter (fun l => pyStrip l ≠ ""))

/-! ### Concrete instances used by the claims -/

/-- The canonical single-paragraph rich text cell value. -/
def cellOfText (s : String) : CellValue :=
  .obj (.cons (.paragraph none (.cons (.text s) .nil)) .nil)

/-- The spec's end-to-end scenario: TEXT block `"Compute the current."`. -/
def c1StepTextBlock : Block :=
  { type := "TEXT", editorContent := [.paragraph [.text "Compute the current." []]] }

/-- The spec's end-to-end scenario: EQUATION block `I = V/R`. -/
def c1EquationBlock : Block :=
  { type := "EQUATION_RENDERER", lines := [⟨"I", "=", "V/R"⟩] }

/-- The spec's end-to-end scenario: FinalAnswer TEXT block `"I = 2A"`. -/
def c1FinalBlock : Block :=
  { type := "TEXT", editorContent := [.paragraph [.text "I = 2A" []]] }

/-- The spec's end-to-end Document: one Step with the text and equation
blocks, and a FinalAnswer with the `I = 2A` block. -/
def c1Document : Document :=
  { steps := [{ blocks := [c1StepTextBlock, c1EquationBlock] }],
    finalBlocks := [c1FinalBlock] }

/-- The sampled expressions from the spec's fixed sample sets. -/
def specSampleExprs : List String :=
  ["x_1 = 5", "V_R = \\frac\x7bP\x7d\x7bI\x7d", "the capital of France",
   "I = V/R", "I = 2A", "Compute the current."]

/-- The block types `process_block_enhanced` dispatches on (lines
205–216); anything else falls through to `return ""`. -/
def handledBlockTypes : List String :=
  ["TEXT", "EXPLANATION", "EQUATION_RENDERER", "ACCOUNTING_TABLE", "TABLE",
   "DRAWING", "CIRCUIT", "LIST", "HTML", "CODE_SNIPPET", "IMAGE_UPLOAD", "MATH_IN_TEXT"]

/-- A TEXT block whose only paragraph text is blank: it renders to `""`. -/
def c9BlankBlock : Block :=
  { type := "TEXT", editorContent := [.paragraph [.text "   " []]] }

/-- Two steps: the first has a block but renders empty, the second is the
scenario text block.  Its HTML must label the second step `Step 2 of 2`. -/
def c9Document : Document :=
  { steps := [{ blocks := [c9BlankBlock] }, { blocks := [c1StepTextBlock] }] }

/-- C8's failing input: the items of an ordered list with
`attrs.start = 3` and one item `"x"`. -/
def c8Items : ListItemSeq := .cons (.cons (.paragraph [.text "x" []]) .nil) .nil

/-- C4's table: declared 1×2 with raw keys `0-0`, `0-1` and no spans. -/
def c4Table : TableBlock :=
  { cells := [((0, 0), cellOfText "Alpha"), ((0, 1), cellOfText "Beta")],
    rows := 1, columns := 2, rowSpans := [], columnSpans := [] }

/-- C4's witness cell contents. -/
def c4WitnessF (i j : Nat) : String := if j = 0 then "Alpha" else "Beta"

/-- C5's overlap counterexample: a 1×3 (post-transposition) row with two
overlapping colspan-2 cells. -/
def c5OverlapTable : TableBlock :=
  { cells := [((0, 0), cellOfText "a"), ((1, 0), cellOfText "b"), ((2, 0), cellOfText "c")],
    rows := 3, columns := 1, rowSpans := [],
    columnSpans := [((0, 0), 2), ((0, 1), 2)] }

/-- C5's witness table: a 2×2 (post-transposition) grid with a single
in-bounds colspan-2 cell. -/
def c5SpanTable : TableBlock :=
  { cells := [((0, 0), cellOfText "a"), ((1, 0), cellOfText "b"),
              ((0, 1), cellOfText "c"), ((1, 1), cellOfText "d")],
    rows := 2, columns := 2, rowSpans := [], columnSpans := [((0, 0), 2)] }

/-- C6's counterexample: a TABLE block with a declared 1×1 grid and zero
cells. -/
def c6EmptyTable : TableBlock :=
  { cells := [], rows := 1, columns := 1, rowSpans := [], columnSpans := [] }

def c6TableBlock : Block := { type := "TABLE", table := some c6EmptyTable }

/-- A TEXT block with no editor content and no fallback text. -/
def c6BlankTextBlock : Block := { type := "TEXT" }

/-- A LIST block with zero items. -/
def c6ListBlock : Block := { type := "LIST" }

/-- A TABLE block with no `block` payload at all. -/
def c6NoTableBlock : Block := { type := "TABLE" }

/-- A 1×1 table whose only cell holds blank text. -/
def c6BlankCellTable : TableBlock :=
  { cells := [((0, 0), cellOfText "  ")], rows := 1, columns := 1,
    rowSpans := [], columnSpans := [] }

/-! ### Helper lemmas -/

theorem blocksHtml_acc (mode : String) (bs : List Block) (acc : String) :
    bs.foldl (fun acc b =>
      let p := process_block_enhanced mode b
      if pyStrip p ≠ "" then acc ++ p else acc) acc = acc ++ blocksHtml mode bs := by
  induction bs generalizing acc with
  | nil => simp [blocksHtml]
  | cons b bs ih =>
    simp only [blocksHtml, List.foldl_cons]
    rw [ih, ih]
    by_cases h : pyStrip (process_block_enhanced mode b) ≠ ""
    · simp only [if_pos h]
      simp [String.append_assoc]
    · simp only [if_neg h]
      simp

theorem dictLookup_eq_some {α : Type} {l : List ((Nat × Nat) × α)} {k : Nat × Nat} {v : α}
    (h : dictLookup l k = some v) : ∃ e ∈ l, e.2 = v := by
  unfold dictLookup at h
  cases hf : l.find? (fun e => e.1 == k) with
  | none => rw [hf] at h; exact absurd h (by simp)
  | some e =>
    rw [hf] at h
    exact ⟨e, List.mem_of_find?_eq_some hf, by injection h⟩

theorem cellLoop_blank (cellAt : Nat × Nat → Option CellValue) (rsF csF : Nat × Nat → Nat)
    (R C r : Nat)
    (hblank : ∀ p v, cellAt p = some v → pyStrip (extractCellData v).1 = "") :
    ∀ (cls : List Nat) (shadow : List (Nat × Nat)),
      (genericTableCellLoop cellAt rsF csF R C r cls shadow false).2.2 = false := by
  intro cls
  induction cls with
  | nil => intro shadow; rfl
  | cons c cls ih =>
    intro shadow
    simp only [genericTableCellLoop]
    by_cases hs : (r, c) ∈ shadow
    · rw [if_pos hs]; exact ih shadow
    · rw [if_neg hs]
      cases hv : cellAt (r, c) with
      | none => simpa using ih shadow
      | some v =>
        have hb := hblank _ _ hv
        simp only [hb]
        simpa using ih _

theorem rowLoop_blank (cellAt : Nat × Nat → Option CellValue) (rsF csF : Nat × Nat → Nat)
    (R C : Nat)
    (hblank : ∀ p v, cellAt p = some v → pyStrip (extractCellData v).1 = "") :
    ∀ (rs : List Nat) (shadow : List (Nat × Nat)),
      (genericTableRowLoop cellAt rsF csF R C rs shadow false).2 = false := by
  intro rs
  induction rs with
  | nil => intro shadow; rfl
  | cons r rs ih =>
    intro shadow
    simp only [genericTableRowLoop]
    rw [cellLoop_blank cellAt rsF csF R C r hblank (List.range C) shadow]
    exact ih _

/-- A generic table whose every cell extracts to blank content is
suppressed (`has_content` never becomes true, line 658). -/
theorem genericTableHtml_blank (t : TableBlock)
    (hb : ∀ e ∈ t.cells, pyStrip (extractCellData e.2).1 = "") :
    genericTableHtml t = "" := by
  unfold genericTableHtml
  by_cases hc : (correctedCells t).isEmpty
  · simp [hc]
  · rw [if_neg (by simpa using hc)]
    have hblank : ∀ p v, dictLookup (correctedCells t) p = some v →
        pyStrip (extractCellData v).1 = "" := by
      intro p v hv
      obtain ⟨e, he, hev⟩ := dictLookup_eq_some hv
      obtain ⟨e0, he0, he0e⟩ := List.mem_map.mp he
      have : e0.2 = v := by rw [← he0e] at hev; exact hev
      rw [← this]
      exact hb e0 he0
    have hz := rowLoop_blank (fun p => dictLookup (correctedCells t) p) (fun p => rsAt t p)
      (fun p => csAt t p) (derivedRows t) (derivedCols t) hblank
      (List.range (derivedRows t)) []
    simp [hz]

/-! ### List lemmas for the table analysis -/

/-- Row-major order on grid positions. -/
def lexLt (p q : Nat × Nat) : Prop := p.1 < q.1 ∨ (p.1 = q.1 ∧ p.2 < q.2)

theorem lexLt_ne {p q : Nat × Nat} (h : lexLt p q) : p ≠ q := by
  rintro rfl
  rcases h with h | ⟨h1, h2⟩ <;> omega

theorem mem_rowMajor {R C : Nat} {p : Nat × Nat} :
    p ∈ rowMajor R C ↔ p.1 < R ∧ p.2 < C := by
  cases p with
  | mk r c =>
    simp only [rowMajor, List.mem_flatMap, List.mem_map, List.mem_range]
    constructor
    · rintro ⟨a, ha, b, hb, heq⟩
      obtain ⟨h1, h2⟩ := Prod.mk.injEq .. ▸ heq
      exact ⟨h1 ▸ ha, h2 ▸ hb⟩
    · rintro ⟨hr, hc⟩
      exact ⟨r, hr, c, hc, rfl⟩

theorem rowMajor_pairwise (R C : Nat) : List.Pairwise lexLt (rowMajor R C) := by
  have hflat : rowMajor R C =
      ((List.range R).map (fun r => (List.range C).map (fun c => (r, c)))).flatten := by
    simp [rowMajor, List.flatMap]
  rw [hflat, List.pairwise_join]
  refine ⟨?_, ?_⟩
  · intro l hl
    obtain ⟨r, _, rfl⟩ := List.mem_map.mp hl
    rw [List.pairwise_map]
    exact (List.pairwise_lt_range C).imp (fun h => Or.inr ⟨rfl, h⟩)
  · rw [List.pairwise_map]
    refine (List.pairwise_lt_range R).imp ?_
    intro r1 r2 h x hx y hy
    obtain ⟨c1, _, rfl⟩ := List.mem_map.mp hx
    obtain ⟨c2, _, rfl⟩ := List.mem_map.mp hy
    exact Or.inl h

theorem rowMajor_nodup (R C : Nat) : (rowMajor R C).Nodup :=
  (rowMajor_pairwise R C).imp (fun h => lexLt_ne h)

theorem rowMajor_length (R C : Nat) : (rowMajor R C).length = R * C := by
  simp [rowMajor, List.length_flatMap, Function.comp_def, List.map_const]

theorem dictLookup_cons {α : Type} (x : (Nat × Nat) × α) (xs : List ((Nat × Nat) × α))
    (k : Nat × Nat) :
    dictLookup (x :: xs) k = if x.1 == k then some x.2 else dictLookup xs k := by
  unfold dictLookup
  rw [List.find?_cons]
  cases hb : (x.1 == k) <;> simp [hb]

theorem dictLookup_map {α : Type} (l : List (Nat × Nat)) (ent : Nat × Nat → (Nat × Nat) × α)
    (key : Nat × Nat) :
    dictLookup (l.map ent) key =
      match l.find? (fun q => (ent q).1 == key) with
      | some q => some (ent q).2
      | none => none := by
  induction l with
  | nil => rfl
  | cons a tl ih =>
    rw [List.map_cons, dictLookup_cons, List.find?_cons]
    cases hb : ((ent a).1 == key) <;> simp [hb, ih]

theorem find?_beq_eq (l : List (Nat × Nat)) (k : Nat × Nat) :
    l.find? (fun q => q == k) = if k ∈ l then some k else none := by
  induction l with
  | nil => simp
  | cons a tl ih =>
    rw [List.find?_cons]
    by_cases h : a = k
    · subst h; simp
    · have hb : (a == k) = false := by simp [h]
      rw [hb]
      simp only [List.mem_cons, ih]
      have : ¬ k = a := fun hk => h hk.symm
      simp [this]

theorem foldl_max_ge_init (l : List Nat) : ∀ a : Nat, a ≤ l.foldl max a := by
  induction l with
  | nil => intro a; exact Nat.le_refl a
  | cons x tl ih =>
    intro a
    exact le_trans (Nat.le_max_left a x) (ih (max a x))

theorem foldl_max_ge_mem {l : List Nat} {x : Nat} (h : x ∈ l) : ∀ a : Nat, x ≤ l.foldl max a := by
  induction l with
  | nil => cases h
  | cons y tl ih =>
    intro a
    rcases List.mem_cons.mp h with rfl | hx
    · exact le_trans (Nat.le_max_right a x) (foldl_max_ge_init tl (max a x))
    · exact ih hx (max a y)

theorem foldl_max_le {l : List Nat} {m : Nat} (h : ∀ x ∈ l, x ≤ m) :
    ∀ a : Nat, a ≤ m → l.foldl max a ≤ m := by
  induction l with
  | nil => intro a ha; exact ha
  | cons x tl ih =>
    intro a ha
    exact ih (fun y hy => h y (List.mem_cons_of_mem x hy))
      (max a x) (Nat.max_le.mpr ⟨ha, h x (List.mem_cons_self x tl)⟩)

theorem maxKeyRC_eq (cs : List ((Nat × Nat) × CellValue)) :
    maxKeyRC cs =
      ((cs.map (fun e => e.1.1)).foldl max 0, (cs.map (fun e => e.1.2)).foldl max 0) := by
  unfold maxKeyRC
  rw [List.foldl_map, List.foldl_map]
  suffices h : ∀ (a b : Nat),
      cs.foldl (fun m e => (max m.1 e.1.1, max m.2 e.1.2)) (a, b) =
        (cs.foldl (fun x y => max x y.1.1) a, cs.foldl (fun x y => max x y.1.2) b) from h 0 0
  induction cs with
  | nil => intro a b; rfl
  | cons e tl ih => intro a b; exact ih (max a e.1.1) (max b e.1.2)

theorem spanMarks_one {p : Nat × Nat} {R C : Nat} (h1 : p.1 < R) (h2 : p.2 < C) :
    spanMarks 1 1 p R C = [p] := by
  simp [spanMarks, List.range_succ, h1, h2]

/-- With every span equal to 1, the shadow grid only ever holds already
visited positions, so no position is skipped: the walk emits every
position once, in order. -/
theorem shadowWalk_all_unit (cellAt : Nat × Nat → Option CellValue)
    (rsF csF : Nat × Nat → Nat) (R C : Nat)
    (h1 : ∀ p, rsF p = 1) (h2 : ∀ p, csF p = 1) :
    ∀ (l : List (Nat × Nat)) (shadow : List (Nat × Nat)), l.Nodup →
      (∀ p ∈ l, p.1 < R ∧ p.2 < C) → (∀ p ∈ l, p ∉ shadow) →
      shadowWalk cellAt rsF csF R C l shadow =
        l.map (fun p =>
          (p, match cellAt p with | some v => (extractCellData v).1 | none => "")) := by
  intro l
  induction l with
  | nil => intro shadow _ _ _; rfl
  | cons p ps ih =>
    intro shadow hnd hb hsh
    have hpn : p ∉ shadow := hsh p (List.mem_cons_self p ps)
    rw [shadowWalk, if_neg hpn]
    have hps : ∀ q ∈ ps, q.1 < R ∧ q.2 < C := fun q hq => hb q (List.mem_cons_of_mem p hq)
    cases hv : cellAt p with
    | none =>
      rw [List.map_cons, ih shadow (List.Nodup.of_cons hnd) hps
        (fun q hq => hsh q (List.mem_cons_of_mem p hq))]
      simp [hv]
    | some v =>
      have hb1 := hb p (List.mem_cons_self p ps)
      rw [h1 p, h2 p, spanMarks_one hb1.1 hb1.2]
      have hsh2 : ∀ q ∈ ps, q ∉ shadow ++ [p] := by
        intro q hq hmem
        rcases List.mem_append.mp hmem with hm | hm
        · exact hsh q (List.mem_cons_of_mem p hq) hm
        · have : q = p := by simpa using hm
          exact (List.nodup_cons.mp hnd).1 (this ▸ hq)
      rw [List.map_cons, ih (shadow ++ [p]) (List.Nodup.of_cons hnd) hps hsh2]
      simp [hv]

/-! ### Canonical full tables (for the C4 analysis) -/

/-- Cells exactly populating a declared `rows × columns` grid with
canonical single-paragraph text values. -/
def mkCanonicalCells (rows cols : Nat) (f : Nat → Nat → String) :
    List ((Nat × Nat) × CellValue) :=
  (rowMajor rows cols).map (fun q => (q, cellOfText (f q.1 q.2)))

/-- A TABLE payload with the canonical cells, matching declared counts,
and no spans. -/
def mkCanonicalTable (rows cols : Nat) (f : Nat → Nat → String) : TableBlock :=
  { cells := mkCanonicalCells rows cols f, rows := rows, columns := cols,
    rowSpans := [], columnSpans := [] }

theorem extractCellData_cellOfText (s : String) : extractCellData (cellOfText s) = (s, "left") := by
  show ((("" : String) ++ s, "left") : String × String) = (s, "left")
  simp

theorem textCellContent_cellOfText (s : String) : textCellContent (cellOfText s) = s := rfl

theorem lookup_canonical (rows cols : Nat) (f : Nat → Nat → String) (r c : Nat) :
    dictLookup (mkCanonicalCells rows cols f) (r, c) =
      if r < rows ∧ c < cols then some (cellOfText (f r c)) else none := by
  unfold mkCanonicalCells
  rw [dictLookup_map]
  have hpred : (fun q : Nat × Nat => (((q, cellOfText (f q.1 q.2)) : (Nat × Nat) × CellValue).1 == (r, c))) =
      (fun q : Nat × Nat => q == (r, c)) := rfl
  rw [hpred, find?_beq_eq]
  by_cases hm : (r, c) ∈ rowMajor rows cols
  · have hb := mem_rowMajor.mp hm
    rw [if_pos hm, if_pos hb]
  · rw [if_neg hm, if_neg (fun hb => hm (mem_rowMajor.mpr hb))]

theorem correctedCells_canonical (rows cols : Nat) (f : Nat → Nat → String) :
    correctedCells (mkCanonicalTable rows cols f) =
      (rowMajor rows cols).map (fun q => ((q.2, q.1), cellOfText (f q.1 q.2))) := by
  unfold correctedCells mkCanonicalTable mkCanonicalCells
  rw [List.map_map]
  rfl

theorem lookup_corrected_canonical (rows cols : Nat) (f : Nat → Nat → String) (r c : Nat) :
    dictLookup (correctedCells (mkCanonicalTable rows cols f)) (r, c) =
      if c < rows ∧ r < cols then some (cellOfText (f c r)) else none := by
  rw [correctedCells_canonical, dictLookup_map]
  have hpred : (fun q : Nat × Nat =>
      ((((q.2, q.1), cellOfText (f q.1 q.2)) : (Nat × Nat) × CellValue).1 == (r, c))) =
      (fun q : Nat × Nat => q == (c, r)) := by
    funext q
    rw [Bool.eq_iff_iff]
    simp only [beq_iff_eq, Prod.ext_iff]
    exact and_comm
  rw [hpred, find?_beq_eq]
  by_cases hm : (c, r) ∈ rowMajor rows cols
  · have hb := mem_rowMajor.mp hm
    rw [if_pos hm, if_pos hb]
  · rw [if_neg hm, if_neg (fun hb => hm (mem_rowMajor.mpr hb))]

theorem derived_canonical (rows cols : Nat) (f : Nat → Nat → String)
    (hr : 0 < rows) (hc : 0 < cols) :
    derivedRows (mkCanonicalTable rows cols f) = cols ∧
    derivedCols (mkCanonicalTable rows cols f) = rows := by
  have hkeys1 : (correctedCells (mkCanonicalTable rows cols f)).map (fun e => e.1.1) =
      (rowMajor rows cols).map (fun q => q.2) := by
    rw [correctedCells_canonical, List.map_map]
    rfl
  have hkeys2 : (correctedCells (mkCanonicalTable rows cols f)).map (fun e => e.1.2) =
      (rowMajor rows cols).map (fun q => q.1) := by
    rw [correctedCells_canonical, List.map_map]
    rfl
  constructor
  · show (maxKeyRC (correctedCells (mkCanonicalTable rows cols f))).1 + 1 = cols
    rw [maxKeyRC_eq, hkeys1]
    have hle : ((rowMajor rows cols).map (fun q => q.2)).foldl max 0 ≤ cols - 1 := by
      apply foldl_max_le _ 0 (by omega)
      intro x hx
      obtain ⟨q, hq, rfl⟩ := List.mem_map.mp hx
      have := (mem_rowMajor.mp hq).2
      omega
    have hw : ((0 : Nat), cols - 1) ∈ rowMajor rows cols := by
      refine mem_rowMajor.mpr ⟨?_, ?_⟩ <;> simp <;> omega
    have hmem : cols - 1 ∈ (rowMajor rows cols).map (fun q : Nat × Nat => q.2) :=
      List.mem_map.mpr ⟨(0, cols - 1), hw, rfl⟩
    have hge := foldl_max_ge_mem hmem 0
    omega
  · show (maxKeyRC (correctedCells (mkCanonicalTable rows cols f))).2 + 1 = rows
    rw [maxKeyRC_eq, hkeys2]
    have hle : ((rowMajor rows cols).map (fun q => q.1)).foldl max 0 ≤ rows - 1 := by
      apply foldl_max_le _ 0 (by omega)
      intro x hx
      obtain ⟨q, hq, rfl⟩ := List.mem_map.mp hx
      have := (mem_rowMajor.mp hq).1
      omega
    have hw : (rows - 1, (0 : Nat)) ∈ rowMajor rows cols := by
      refine mem_rowMajor.mpr ⟨?_, ?_⟩ <;> simp <;> omega
    have hmem : rows - 1 ∈ (rowMajor rows cols).map (fun q : Nat × Nat => q.1) :=
      List.mem_map.mpr ⟨(rows - 1, 0), hw, rfl⟩
    have hge := foldl_max_ge_mem hmem 0
    omega

theorem flatMap_if_none {α : Type} {l : List Nat} {r : Nat} (h : r ∉ l) (L : Nat → List α) :
    (l.flatMap (fun x => if x = r then L x else [])) = [] := by
  rw [List.flatMap_eq_nil_iff]
  intro x hx
  exact if_neg (fun hxr => h (by rw [← hxr]; exact hx))

theorem flatMap_if_single {α : Type} {l : List Nat} {r : Nat} (hnd : l.Nodup) (hr : r ∈ l)
    (L : Nat → List α) :
    (l.flatMap (fun x => if x = r then L x else [])) = L r := by
  induction l with
  | nil => cases hr
  | cons a tl ih =>
    rw [List.flatMap_cons]
    rcases List.mem_cons.mp hr with rfl | hmem
    · rw [if_pos rfl, flatMap_if_none (List.nodup_cons.mp hnd).1 L, List.append_nil]
    · have ha : a ≠ r := fun h => (List.nodup_cons.mp hnd).1 (h ▸ hmem)
      rw [if_neg ha, List.nil_append, ih (List.nodup_cons.mp hnd).2 hmem]

theorem filterMap_flatMap {α β γ : Type} (l : List α) (f : α → List β) (g : β → Option γ) :
    (l.flatMap f).filterMap g = l.flatMap (fun a => (f a).filterMap g) := by
  induction l with
  | nil => rfl
  | cons a tl ih => rw [List.flatMap_cons, List.filterMap_append, ih, List.flatMap_cons]

theorem filterMap_rowMajor_row {α : Type} (R C r : Nat) (hr : r < R) (h : Nat × Nat → α) :
    ((rowMajor R C).map (fun p => (p, h p))).filterMap
        (fun e => if e.1.1 = r then some e.2 else none) =
      (List.range C).map (fun c => h (r, c)) := by
  unfold rowMajor
  rw [List.map_flatMap, filterMap_flatMap]
  have hseg : ∀ x : Nat,
      ((((List.range C).map (fun c => (x, c))).map (fun p => (p, h p))).filterMap
        (fun e => if e.1.1 = r then some e.2 else none)) =
      (if x = r then (List.range C).map (fun c => h (r, c)) else []) := by
    intro x
    rw [List.map_map, List.filterMap_map]
    by_cases hx : x = r
    · subst hx
      rw [if_pos rfl]
      have : ((fun e : (Nat × Nat) × α => if e.1.1 = x then some e.2 else none) ∘
          ((fun p : Nat × Nat => (p, h p)) ∘ (fun c => (x, c)))) =
          (some ∘ (fun c => h (x, c))) := by
        funext c
        simp
      rw [this, List.filterMap_eq_map]
    · rw [if_neg hx]
      have : ((fun e : (Nat × Nat) × α => if e.1.1 = r then some e.2 else none) ∘
          ((fun p : Nat × Nat => (p, h p)) ∘ (fun c => (x, c)))) =
          (fun _ => none) := by
        funext c
        simp [hx]
      rw [this]
      simp
  have hfun : (fun x : Nat =>
      ((((List.range C).map (fun c => (x, c))).map (fun p => (p, h p))).filterMap
        (fun e => if e.1.1 = r then some e.2 else none))) =
      (fun x : Nat => if x = r then (List.range C).map (fun c => h (r, c)) else []) :=
    funext hseg
  rw [hfun]
  exact flatMap_if_single (List.nodup_range R) (List.mem_range.mpr hr)
    (fun _ => (List.range C).map (fun c => h (r, c)))

/-! ### Span conservation machinery (for the C5 analysis) -/

theorem mem_spanMarks {rs cs : Nat} {p q : Nat × Nat} {R C : Nat} :
    q ∈ spanMarks rs cs p R C ↔
      (p.1 ≤ q.1 ∧ q.1 < p.1 + rs ∧ p.2 ≤ q.2 ∧ q.2 < p.2 + cs ∧ q.1 < R ∧ q.2 < C) := by
  obtain ⟨a, b⟩ := p
  obtain ⟨x, y⟩ := q
  unfold spanMarks
  rw [List.mem_filter]
  simp only [List.mem_flatMap, List.mem_map, List.mem_range, Bool.and_eq_true, decide_eq_true_eq]
  constructor
  · rintro ⟨⟨i, hi, j, hj, heq⟩, hb1, hb2⟩
    obtain ⟨h1, h2⟩ := Prod.mk.injEq .. ▸ heq
    constructor
    · omega
    refine ⟨by omega, by omega, by omega, hb1, hb2⟩
  · rintro ⟨h1, h2, h3, h4, h5, h6⟩
    refine ⟨⟨x - a, by omega, y - b, by omega, ?_⟩, h5, h6⟩
    have hx : a + (x - a) = x := by omega
    have hy : b + (y - b) = y := by omega
    rw [hx, hy]

theorem self_mem_spanMarks {rs cs : Nat} {p : Nat × Nat} {R C : Nat}
    (h1 : 1 ≤ rs) (h2 : 1 ≤ cs) (h3 : p.1 < R) (h4 : p.2 < C) :
    p ∈ spanMarks rs cs p R C :=
  mem_spanMarks.mpr ⟨Nat.le_refl _, by omega, Nat.le_refl _, by omega, h3, h4⟩

theorem spanMarks_area_ge2 {rs cs : Nat} {p q : Nat × Nat} {R C : Nat}
    (hm : q ∈ spanMarks rs cs p R C) (hne : q ≠ p) (h1 : 1 ≤ rs) (h2 : 1 ≤ cs) :
    2 ≤ rs * cs := by
  obtain ⟨ha1, ha2, ha3, ha4, _, _⟩ := mem_spanMarks.mp hm
  by_cases hq : q.1 = p.1 ∧ q.2 = p.2
  · exact absurd (Prod.ext hq.1 hq.2) hne
  · have : 2 ≤ rs ∨ 2 ≤ cs := by omega
    rcases this with h | h
    · calc 2 = 2 * 1 := by omega
        _ ≤ rs * cs := Nat.mul_le_mul h h2
    · calc 2 = 1 * 2 := by omega
        _ ≤ rs * cs := Nat.mul_le_mul h1 h

/-- A position is skipped by the emission loop exactly when it lies
strictly inside the span rectangle of some cell position. -/
def skippedAt (cellAt : Nat × Nat → Option CellValue) (rsF csF : Nat × Nat → Nat)
    (R C : Nat) (q : Nat × Nat) : Prop :=
  ∃ p ∈ rowMajor R C, (cellAt p).isSome = true ∧
    q ∈ spanMarks (rsF p) (csF p) p R C ∧ q ≠ p

instance skippedAt_decidable (cellAt : Nat × Nat → Option CellValue)
    (rsF csF : Nat × Nat → Nat) (R C : Nat) (q : Nat × Nat) :
    Decidable (skippedAt cellAt rsF csF R C q) := by
  unfold skippedAt
  infer_instance

/-- The fold invariant: while walking the row-major order with shadow set
`S` equal to the union of the span rectangles of the already-emitted cell
positions, every remaining position is skipped exactly when `skippedAt`
holds for it, so the number of emitted cells is the count of non-skipped
positions.  Hypotheses: spans are at least 1, rectangles fit in the grid,
and rectangles of distinct spanning cells are disjoint. -/
theorem shadowWalk_count (cellAt : Nat × Nat → Option CellValue)
    (rsF csF : Nat × Nat → Nat) (R C : Nat)
    (hpos : ∀ p ∈ rowMajor R C, (cellAt p).isSome = true → 1 ≤ rsF p ∧ 1 ≤ csF p)
    (hin : ∀ p ∈ rowMajor R C, (cellAt p).isSome = true →
      p.1 + rsF p ≤ R ∧ p.2 + csF p ≤ C)
    (hdisj : ∀ p ∈ rowMajor R C, ∀ p2 ∈ rowMajor R C,
      (cellAt p).isSome = true → (cellAt p2).isSome = true → p ≠ p2 →
      2 ≤ rsF p * csF p → 2 ≤ rsF p2 * csF p2 →
      ∀ x, x ∈ spanMarks (rsF p) (csF p) p R C → x ∈ spanMarks (rsF p2) (csF p2) p2 R C →
        False) :
    ∀ (suf pre S : List (Nat × Nat)),
      rowMajor R C = pre ++ suf →
      (∀ x, x ∈ S ↔ ∃ p ∈ pre, (cellAt p).isSome = true ∧
        ¬ skippedAt cellAt rsF csF R C p ∧ x ∈ spanMarks (rsF p) (csF p) p R C) →
      (shadowWalk cellAt rsF csF R C suf S).length =
        suf.countP (fun q => !(decide (skippedAt cellAt rsF csF R C q))) := by
  intro suf
  induction suf with
  | nil => intro pre S hsplit hinv; rfl
  | cons q suf ih =>
    intro pre S hsplit hinv
    have hqmem : q ∈ rowMajor R C := by
      rw [hsplit]
      exact List.mem_append.mpr (Or.inr (List.mem_cons_self q suf))
    have hnotpre : q ∉ pre := by
      intro hq
      have hnd := rowMajor_nodup R C
      rw [hsplit] at hnd
      rcases (List.nodup_append.mp hnd) with ⟨_, _, hdisj2⟩
      exact hdisj2 hq (List.mem_cons_self q suf)
    have hkey : q ∈ S ↔ skippedAt cellAt rsF csF R C q := by
      constructor
      · rintro hqs
        obtain ⟨p, hppre, hcell, hnsk, hqm⟩ := (hinv q).mp hqs
        have hpm : p ∈ rowMajor R C := by
          rw [hsplit]; exact List.mem_append.mpr (Or.inl hppre)
        have hneq : q ≠ p := fun h => hnotpre (h ▸ hppre)
        exact ⟨p, hpm, hcell, hqm, hneq⟩
      · rintro ⟨ph, hpm, hcell, hqm, hneq⟩
        have hmono := mem_spanMarks.mp hqm
        have hppre : ph ∈ pre := by
          have := hpm
          rw [hsplit] at this
          rcases List.mem_append.mp this with h | h
          · exact h
          · rcases List.mem_cons.mp h with rfl | h
            · exact absurd rfl hneq
            · exfalso
              have hpw := rowMajor_pairwise R C
              rw [hsplit] at hpw
              have hqp : lexLt q ph := by
                have := List.pairwise_append.mp hpw
                exact (List.pairwise_cons.mp this.2.1).1 ph h
              rcases hqp with hlt | ⟨heq, hlt⟩ <;> omega
        have hnsk : ¬ skippedAt cellAt rsF csF R C ph := by
          rintro ⟨p2, hp2m, hcell2, hphm, hne2⟩
          have hb1 := hpos ph hpm hcell
          have hb2 := hpos p2 hp2m hcell2
          have hbin := hin ph hpm hcell
          have harea1 : 2 ≤ rsF ph * csF ph := spanMarks_area_ge2 hqm hneq hb1.1 hb1.2
          have harea2 : 2 ≤ rsF p2 * csF p2 := spanMarks_area_ge2 hphm hne2 hb2.1 hb2.2
          have hself : ph ∈ spanMarks (rsF ph) (csF ph) ph R C :=
            self_mem_spanMarks hb1.1 hb1.2 (by omega) (by omega)
          exact hdisj ph hpm p2 hp2m hcell hcell2 (fun h => hne2 (h ▸ rfl)) harea1 harea2
            ph hself hphm
        exact (hinv q).mpr ⟨ph, hppre, hcell, hnsk, hqm⟩
    rw [shadowWalk, List.countP_cons]
    by_cases hsk : skippedAt cellAt rsF csF R C q
    · rw [if_pos (hkey.mpr hsk)]
      have hinv2 : ∀ x, x ∈ S ↔ ∃ p ∈ pre ++ [q], (cellAt p).isSome = true ∧
          ¬ skippedAt cellAt rsF csF R C p ∧ x ∈ spanMarks (rsF p) (csF p) p R C := by
        intro x
        rw [hinv x]
        constructor
        · rintro ⟨p, hp, h⟩
          exact ⟨p, List.mem_append.mpr (Or.inl hp), h⟩
        · rintro ⟨p, hp, h⟩
          rcases List.mem_append.mp hp with hp | hp
          · exact ⟨p, hp, h⟩
          · have : p = q := by simpa using hp
            exact absurd hsk (this ▸ h.2.1)
      rw [ih (pre ++ [q]) S (by rw [hsplit]; simp) hinv2]
      simp [hsk]
    · rw [if_neg (fun h => hsk (hkey.mp h))]
      have hpredq : (!(decide (skippedAt cellAt rsF csF R C q))) = true := by simp [hsk]
      cases hv : cellAt q with
      | none =>
        have hinv2 : ∀ x, x ∈ S ↔ ∃ p ∈ pre ++ [q], (cellAt p).isSome = true ∧
            ¬ skippedAt cellAt rsF csF R C p ∧ x ∈ spanMarks (rsF p) (csF p) p R C := by
          intro x
          rw [hinv x]
          constructor
          · rintro ⟨p, hp, h⟩
            exact ⟨p, List.mem_append.mpr (Or.inl hp), h⟩
          · rintro ⟨p, hp, h⟩
            rcases List.mem_append.mp hp with hp | hp
            · exact ⟨p, hp, h⟩
            · have hpq : p = q := by simpa using hp
              rw [hpq, hv] at h
              exact absurd h.1 (by simp)
        rw [List.length_cons, ih (pre ++ [q]) S (by rw [hsplit]; simp) hinv2]
        simp [hsk]
      | some v =>
        have hinv2 : ∀ x, x ∈ S ++ spanMarks (rsF q) (csF q) q R C ↔
            ∃ p ∈ pre ++ [q], (cellAt p).isSome = true ∧
            ¬ skippedAt cellAt rsF csF R C p ∧ x ∈ spanMarks (rsF p) (csF p) p R C := by
          intro x
          rw [List.mem_append, hinv x]
          constructor
          · rintro (⟨p, hp, h⟩ | hx)
            · exact ⟨p, List.mem_append.mpr (Or.inl hp), h⟩
            · exact ⟨q, List.mem_append.mpr (Or.inr (List.mem_cons_self q [])),
                by simp [hv], hsk, hx⟩
          · rintro ⟨p, hp, h⟩
            rcases List.mem_append.mp hp with hp | hp
            · exact Or.inl ⟨p, hp, h⟩
            · have hpq : p = q := by simpa using hp
              exact Or.inr (hpq ▸ h.2.2)
        rw [List.length_cons, ih (pre ++ [q]) (S ++ spanMarks (rsF q) (csF q) q R C)
          (by rw [hsplit]; simp) hinv2]
        simp [hsk]

theorem countP_or_disjoint {α : Type} (l : List α) (A B : α → Bool)
    (h : ∀ x ∈ l, ¬(A x = true ∧ B x = true)) :
    l.countP (fun x => A x || B x) = l.countP A + l.countP B := by
  induction l with
  | nil => rfl
  | cons a tl ih =>
    rw [List.countP_cons, List.countP_cons, List.countP_cons,
      ih (fun x hx => h x (List.mem_cons_of_mem a hx))]
    by_cases hA : A a = true
    · have hB : B a = false := by
        cases hb : B a
        · rfl
        · exact absurd ⟨hA, hb⟩ (h a (List.mem_cons_self a tl))
      simp [hA, hB]
      omega
    · simp only [Bool.not_eq_true] at hA
      simp [hA]
      omega

theorem countP_mem_eq_length {l sub : List (Nat × Nat)} (hl : l.Nodup) (hsub : sub.Nodup)
    (hss : ∀ x ∈ sub, x ∈ l) :
    l.countP (fun x => decide (x ∈ sub)) = sub.length := by
  rw [List.countP_eq_length_filter]
  have hperm : (l.filter (fun x => decide (x ∈ sub))).Perm sub := by
    apply (List.perm_ext_iff_of_nodup (hl.filter _) hsub).mpr
    intro a
    rw [List.mem_filter]
    simp only [decide_eq_true_eq]
    exact ⟨fun h => h.2, fun h => ⟨hss a h, h⟩⟩
  exact hperm.length_eq

theorem countP_disjoint_union {grid : List (Nat × Nat)} (hgridnd : grid.Nodup) :
    ∀ (qs : List (Nat × Nat)) (sets : Nat × Nat → List (Nat × Nat)),
      qs.Nodup →
      (∀ p ∈ qs, ∀ x ∈ sets p, x ∈ grid) →
      (∀ p ∈ qs, (sets p).Nodup) →
      (∀ p ∈ qs, ∀ p2 ∈ qs, p ≠ p2 → ∀ x, x ∈ sets p → x ∈ sets p2 → False) →
      grid.countP (fun q => decide (∃ p ∈ qs, q ∈ sets p)) =
        (qs.map (fun p => (sets p).length)).sum := by
  intro qs
  induction qs with
  | nil => intro sets _ _ _ _; simp
  | cons p qs ih =>
    intro sets hnd hsub hsetnd hdisj
    have hfun : (fun q => decide (∃ x ∈ p :: qs, q ∈ sets x)) =
        (fun q => decide (q ∈ sets p) || decide (∃ x ∈ qs, q ∈ sets x)) := by
      funext q
      rw [Bool.eq_iff_iff]
      simp [List.mem_cons, or_and_right, exists_or]
    rw [hfun, countP_or_disjoint]
    · rw [countP_mem_eq_length hgridnd (hsetnd p (List.mem_cons_self p qs))
        (hsub p (List.mem_cons_self p qs)),
        ih sets (List.nodup_cons.mp hnd).2
          (fun x hx => hsub x (List.mem_cons_of_mem p hx))
          (fun x hx => hsetnd x (List.mem_cons_of_mem p hx))
          (fun x hx y hy => hdisj x (List.mem_cons_of_mem p hx) y
            (List.mem_cons_of_mem p hy))]
      simp
    · rintro x - ⟨hx1, hx2⟩
      rw [decide_eq_true_eq] at hx1 hx2
      obtain ⟨p2, hp2, hxp2⟩ := hx2
      have hne : p ≠ p2 := fun h => (List.nodup_cons.mp hnd).1 (h ▸ hp2)
      exact hdisj p (List.mem_cons_self p qs) p2 (List.mem_cons_of_mem p hp2) hne x hx1 hxp2

theorem spanMarks_eq_map (rs cs : Nat) (p : Nat × Nat) (R C : Nat) :
    spanMarks rs cs p R C =
      ((rowMajor rs cs).map (fun q => (p.1 + q.1, p.2 + q.2))).filter
        (fun q => q.1 < R && q.2 < C) := by
  unfold spanMarks rowMajor
  rw [List.map_flatMap]
  congr 1
  have hfn : (fun i => List.map (fun j => (p.1 + i, p.2 + j)) (List.range cs)) =
      (fun a => List.map (fun q : Nat × Nat => (p.1 + q.1, p.2 + q.2))
        (List.map (fun c => (a, c)) (List.range cs))) := by
    funext i
    rw [List.map_map]
    rfl
  rw [hfn]

theorem spanMarks_nodup (rs cs : Nat) (p : Nat × Nat) (R C : Nat) :
    (spanMarks rs cs p R C).Nodup := by
  rw [spanMarks_eq_map]
  apply List.Nodup.filter
  apply List.Nodup.map
  · intro a b hab
    obtain ⟨a1, a2⟩ := a
    obtain ⟨b1, b2⟩ := b
    obtain ⟨h1, h2⟩ := Prod.mk.injEq .. ▸ hab
    have : a1 = b1 := by omega
    have : a2 = b2 := by omega
    simp_all
  · exact rowMajor_nodup rs cs

theorem spanMarks_length (rs cs : Nat) (p : Nat × Nat) (R C : Nat)
    (hin1 : p.1 + rs ≤ R) (hin2 : p.2 + cs ≤ C) :
    (spanMarks rs cs p R C).length = rs * cs := by
  rw [spanMarks_eq_map]
  rw [List.filter_eq_self.mpr]
  · rw [List.length_map, rowMajor_length]
  · intro a ha
    obtain ⟨q, hq, rfl⟩ := List.mem_map.mp ha
    have := mem_rowMajor.mp hq
    simp
    omega

theorem length_filter_ne {l : List (Nat × Nat)} (hnd : l.Nodup) {a : Nat × Nat} (ha : a ∈ l) :
    (l.filter (fun x => !(x == a))).length = l.length - 1 := by
  induction l with
  | nil => cases ha
  | cons b tl ih =>
    rcases List.mem_cons.mp ha with heq | hmem
    · subst heq
      have hstep : (a :: tl).filter (fun x => !(x == a)) = tl.filter (fun x => !(x == a)) := by
        simp [List.filter_cons]
      rw [hstep, List.filter_eq_self.mpr, List.length_cons]
      · omega
      · intro x hx
        have hxb : x ≠ a := fun h => (List.nodup_cons.mp hnd).1 (h ▸ hx)
        simp [hxb]
    · have hbne : b ≠ a := fun h => (List.nodup_cons.mp hnd).1 (h ▸ hmem)
      have hstep : (b :: tl).filter (fun x => !(x == a)) =
          b :: tl.filter (fun x => !(x == a)) := by
        simp [List.filter_cons, hbne]
      rw [hstep, List.length_cons, List.length_cons, ih (List.nodup_cons.mp hnd).2 hmem]
      have htl : 1 ≤ tl.length := List.length_pos.mpr (fun h => by subst h; cases hmem)
      omega

theorem dictLookup_isSome_iff {α : Type} (l : List ((Nat × Nat) × α)) (p : Nat × Nat) :
    (dictLookup l p).isSome = true ↔ p ∈ l.map (fun e => e.1) := by
  unfold dictLookup
  cases h : l.find? (fun e => e.1 == p) with
  | none =>
    simp only [Option.isSome_none, Bool.false_eq_true, false_iff]
    intro hp
    obtain ⟨e, he, heq⟩ := List.mem_map.mp hp
    have hn := List.find?_eq_none.mp h e he
    simp [heq] at hn
  | some e =>
    simp only [Option.isSome_some, true_iff]
    have h1 := List.find?_some h
    have h2 := List.mem_of_find?_eq_some h
    exact List.mem_map.mpr ⟨e, h2, by simpa using h1⟩

theorem key_lt_derived {t : TableBlock} {p : Nat × Nat}
    (hp : p ∈ (correctedCells t).map (fun e => e.1)) :
    p.1 < derivedRows t ∧ p.2 < derivedCols t := by
  obtain ⟨e, he, rfl⟩ := List.mem_map.mp hp
  constructor
  · show e.1.1 < (maxKeyRC (correctedCells t)).1 + 1
    rw [maxKeyRC_eq]
    dsimp only
    have hmem : e.1.1 ∈ (correctedCells t).map (fun x => x.1.1) :=
      List.mem_map.mpr ⟨e, he, rfl⟩
    have hge := foldl_max_ge_mem hmem 0
    omega
  · show e.1.2 < (maxKeyRC (correctedCells t)).2 + 1
    rw [maxKeyRC_eq]
    dsimp only
    have hmem : e.1.2 ∈ (correctedCells t).map (fun x => x.1.2) :=
      List.mem_map.mpr ⟨e, he, rfl⟩
    have hge := foldl_max_ge_mem hmem 0
    omega

theorem skippedAt_iff_filter (cellAt : Nat × Nat → Option CellValue)
    (rsF csF : Nat × Nat → Nat) (R C : Nat) (q : Nat × Nat) :
    skippedAt cellAt rsF csF R C q ↔
      ∃ p ∈ (rowMajor R C).filter (fun p => (cellAt p).isSome),
        q ∈ (spanMarks (rsF p) (csF p) p R C).filter (fun x => !(x == p)) := by
  unfold skippedAt
  constructor
  · rintro ⟨p, hp, hs, hm, hne⟩
    exact ⟨p, List.mem_filter.mpr ⟨hp, hs⟩,
      List.mem_filter.mpr ⟨hm, by simp [hne]⟩⟩
  · rintro ⟨p, hp, hm⟩
    obtain ⟨hp1, hp2⟩ := List.mem_filter.mp hp
    obtain ⟨hm1, hm2⟩ := List.mem_filter.mp hm
    refine ⟨p, hp1, hp2, hm1, ?_⟩
    simpa using hm2

theorem countP_not_add {α : Type} (b : α → Bool) (l : List α) :
    l.countP (fun x => !(b x)) = l.length - l.countP b := by
  induction l with
  | nil => rfl
  | cons a tl ih =>
    rw [List.countP_cons, List.countP_cons, List.length_cons, ih]
    have hc : tl.countP b ≤ tl.length := by
      rw [List.countP_eq_length_filter]
      exact List.length_filter_le _ _
    cases hb : b a <;> simp [hb] <;> omega

/-- The number of grid positions skipped by the emission loop equals the
sum of `span_area − 1` over the positions holding a cell, provided the
span rectangles stay in the grid and are pairwise disjoint. -/
theorem skipped_count (cellAt : Nat × Nat → Option CellValue)
    (rsF csF : Nat × Nat → Nat) (R C : Nat)
    (hpos : ∀ p ∈ rowMajor R C, (cellAt p).isSome = true → 1 ≤ rsF p ∧ 1 ≤ csF p)
    (hin : ∀ p ∈ rowMajor R C, (cellAt p).isSome = true →
      p.1 + rsF p ≤ R ∧ p.2 + csF p ≤ C)
    (hdisj : ∀ p ∈ rowMajor R C, ∀ p2 ∈ rowMajor R C,
      (cellAt p).isSome = true → (cellAt p2).isSome = true → p ≠ p2 →
      2 ≤ rsF p * csF p → 2 ≤ rsF p2 * csF p2 →
      ∀ x, x ∈ spanMarks (rsF p) (csF p) p R C → x ∈ spanMarks (rsF p2) (csF p2) p2 R C →
        False) :
    (rowMajor R C).countP (fun q => decide (skippedAt cellAt rsF csF R C q)) =
      (((rowMajor R C).filter (fun p => (cellAt p).isSome)).map
        (fun p => rsF p * csF p - 1)).sum := by
  have hfun : (fun q => decide (skippedAt cellAt rsF csF R C q)) =
      (fun q => decide (∃ p ∈ (rowMajor R C).filter (fun p => (cellAt p).isSome),
        q ∈ (spanMarks (rsF p) (csF p) p R C).filter (fun x => !(x == p)))) := by
    funext q
    rw [Bool.eq_iff_iff]
    simp only [decide_eq_true_eq]
    exact skippedAt_iff_filter cellAt rsF csF R C q
  have hmemcps : ∀ p, p ∈ (rowMajor R C).filter (fun p => (cellAt p).isSome) ↔
      p ∈ rowMajor R C ∧ (cellAt p).isSome = true := fun p => List.mem_filter
  have hcpsnd : ((rowMajor R C).filter (fun p => (cellAt p).isSome)).Nodup :=
    (rowMajor_nodup R C).filter _
  have hsub : ∀ p ∈ (rowMajor R C).filter (fun p => (cellAt p).isSome),
      ∀ x ∈ (spanMarks (rsF p) (csF p) p R C).filter (fun x => !(x == p)),
        x ∈ rowMajor R C := by
    intro p _ x hx
    obtain ⟨hx1, -⟩ := List.mem_filter.mp hx
    have hb := mem_spanMarks.mp hx1
    exact mem_rowMajor.mpr ⟨hb.2.2.2.2.1, hb.2.2.2.2.2⟩
  have hsetnd : ∀ p ∈ (rowMajor R C).filter (fun p => (cellAt p).isSome),
      ((spanMarks (rsF p) (csF p) p R C).filter (fun x => !(x == p))).Nodup :=
    fun p _ => (spanMarks_nodup _ _ _ _ _).filter _
  have hdj : ∀ p ∈ (rowMajor R C).filter (fun p => (cellAt p).isSome),
      ∀ p2 ∈ (rowMajor R C).filter (fun p => (cellAt p).isSome), p ≠ p2 →
      ∀ x, x ∈ (spanMarks (rsF p) (csF p) p R C).filter (fun x => !(x == p)) →
        x ∈ (spanMarks (rsF p2) (csF p2) p2 R C).filter (fun x => !(x == p2)) → False := by
    intro p hp p2 hp2 hne x hx1 hx2
    obtain ⟨hpm, hps⟩ := (hmemcps p).mp hp
    obtain ⟨hp2m, hp2s⟩ := (hmemcps p2).mp hp2
    obtain ⟨hm1, hne1⟩ := List.mem_filter.mp hx1
    obtain ⟨hm2, hne2⟩ := List.mem_filter.mp hx2
    have hb1 := hpos p hpm hps
    have hb2 := hpos p2 hp2m hp2s
    have ha1 : 2 ≤ rsF p * csF p :=
      spanMarks_area_ge2 hm1 (by simpa using hne1) hb1.1 hb1.2
    have ha2 : 2 ≤ rsF p2 * csF p2 :=
      spanMarks_area_ge2 hm2 (by simpa using hne2) hb2.1 hb2.2
    exact hdisj p hpm p2 hp2m hps hp2s hne ha1 ha2 x hm1 hm2
  rw [hfun, countP_disjoint_union (rowMajor_nodup R C)
    ((rowMajor R C).filter (fun p => (cellAt p).isSome))
    (fun p => (spanMarks (rsF p) (csF p) p R C).filter (fun x => !(x == p)))
    hcpsnd hsub hsetnd hdj]
  apply congrArg List.sum
  apply List.map_congr_left
  intro p hp
  obtain ⟨hpm, hps⟩ := (hmemcps p).mp hp
  have hb := hpos p hpm hps
  have hbin := hin p hpm hps
  have hbm := mem_rowMajor.mp hpm
  have hself : p ∈ spanMarks (rsF p) (csF p) p R C :=
    self_mem_spanMarks hb.1 hb.2 hbm.1 hbm.2
  rw [length_filter_ne (spanMarks_nodup _ _ _ _ _) hself,
    spanMarks_length _ _ _ _ _ hbin.1 hbin.2]

/-- The emission loop over the full grid emits
`R·C − Σ (span_area − 1)` cells (sum over the positions holding a cell). -/
theorem emitted_count (cellAt : Nat × Nat → Option CellValue)
    (rsF csF : Nat × Nat → Nat) (R C : Nat)
    (hpos : ∀ p ∈ rowMajor R C, (cellAt p).isSome = true → 1 ≤ rsF p ∧ 1 ≤ csF p)
    (hin : ∀ p ∈ rowMajor R C, (cellAt p).isSome = true →
      p.1 + rsF p ≤ R ∧ p.2 + csF p ≤ C)
    (hdisj : ∀ p ∈ rowMajor R C, ∀ p2 ∈ rowMajor R C,
      (cellAt p).isSome = true → (cellAt p2).isSome = true → p ≠ p2 →
      2 ≤ rsF p * csF p → 2 ≤ rsF p2 * csF p2 →
      ∀ x, x ∈ spanMarks (rsF p) (csF p) p R C → x ∈ spanMarks (rsF p2) (csF p2) p2 R C →
        False) :
    (shadowWalk cellAt rsF csF R C (rowMajor R C) []).length =
      R * C - (((rowMajor R C).filter (fun p => (cellAt p).isSome)).map
        (fun p => rsF p * csF p - 1)).sum := by
  have hw := shadowWalk_count cellAt rsF csF R C hpos hin hdisj (rowMajor R C) [] []
    rfl (by intro x; simp)
  have hnot := countP_not_add (fun q => decide (skippedAt cellAt rsF csF R C q)) (rowMajor R C)
  rw [hw, hnot, rowMajor_length, skipped_count cellAt rsF csF R C hpos hin hdisj]

/-! ### The claims -/

/-- C1.  End-to-end scenario: for the Document with one Step holding the
TEXT block `"Compute the current."` and the EQUATION_RENDERER block
`I = V/R`, and a FinalAnswer with the TEXT block `"I = 2A"`, the display
HTML is exactly the expected string — one `step-header` labelled
`Step 1 of 1`, one escaped text paragraph, one `equation-line` span with
the cleaned `I = frac{V}{R}` expression, and one `final-answer` section
containing `I = 2A` — and the text export contains `**Step 1**`, the
LaTeX equation wrapped in `$$…$$`, and `**Final Answer**` followed by
`I = 2A`. -/
theorem C1_end_to_end_scenario :
    process_sqna_content_for_html "display" c1Document =
      "<div class=\"step-header\">Step 1 of 1</div><p>Compute the current.</p><span class=\"equation-line\">`I = frac\x7bV\x7d\x7bR\x7d`</span><div class=\"final-answer\"><h3>Final Answer</h3><p>`I = 2A`</p></div>" ∧
    countSubstr (process_sqna_content_for_html "display" c1Document) "step-header" = 1 ∧
    countSubstr (process_sqna_content_for_html "display" c1Document) "Step 1 of 1" = 1 ∧
    countSubstr (process_sqna_content_for_html "display" c1Document)
      "<p>Compute the current.</p>" = 1 ∧
    countSubstr (process_sqna_content_for_html "display" c1Document) "equation-line" = 1 ∧
    countSubstr (process_sqna_content_for_html "display" c1Document) "final-answer" = 1 ∧
    strContainsSub (process_sqna_content_for_html "display" c1Document)
      "<h3>Final Answer</h3><p>`I = 2A`</p>" = true ∧
    convertAnswerToCleanText c1Document =
      "**Step 1**\nCompute the current.\n$$I = \\frac\x7bV\x7d\x7bR\x7d$$\n**Final Answer**\n$I = 2A$" ∧
    countSubstr (convertAnswerToCleanText c1Document) "**Step 1**" = 1 ∧
    countSubstr (convertAnswerToCleanText c1Document) "$$I = \\frac\x7bV\x7d\x7bR\x7d$$" = 1 ∧
    strContainsSub (convertAnswerToCleanText c1Document) "**Final Answer**\n$I = 2A$" = true := by
  decide

/-- C2 counterexample.  Cleaning is not idempotent for every string: the
backslash-collapsing step (`.replace("\\\\", "\\")`, line 52) halves runs
of backslashes on each pass, so four backslashes clean to two and
re-clean to one. -/
theorem C2_counterexample :
    clean_math_expression (clean_math_expression "\\\\\\\\") ≠
      clean_math_expression "\\\\\\\\" ∧
    clean_math_expression "\\\\\\\\" = "\\\\" ∧
    clean_math_expression "\\\\" = "\\" := by
  decide

/-- C2 (amended).  `clean_math_expression` is idempotent on the spec's
sampled expressions (it is not idempotent for arbitrary strings, see the
counterexample). -/
theorem C2_idempotent_on_samples :
    specSampleExprs.all
      (fun s => clean_math_expression (clean_math_expression s) == clean_math_expression s) =
      true := by
  decide

/-- C3.  `process_block_enhanced` is a total function into strings (the
embedding is total by construction, mirroring the source's per-block
`try/except` that converts any failure into `""`); a block whose type is
not one of the dispatched types renders to the empty string; and the
block-accumulation loop is a homomorphism over list concatenation, so one
block's (possibly empty) output never affects what its sibling blocks
contribute to a Step, FinalAnswer, or Document section. -/
theorem C3_unknown_blocks_and_isolation :
    (∀ (mode : String) (b : Block), b.type ∉ handledBlockTypes →
      process_block_enhanced mode b = "") ∧
    (∀ (mode : String) (xs ys : List Block),
      blocksHtml mode (xs ++ ys) = blocksHtml mode xs ++ blocksHtml mode ys) := by
  constructor
  · intro mode b h
    simp only [handledBlockTypes, List.mem_cons, List.not_mem_nil, or_false, not_or] at h
    obtain ⟨h1, h2, h3, h4, h5, h6, h7, h8, h9, h10, h11, h12⟩ := h
    simp [process_block_enhanced, h1, h2, h3, h4, h5, h6, h7, h8, h9, h10, h11, h12]
  · intro mode xs ys
    simp only [blocksHtml, List.foldl_append]
    rw [blocksHtml_acc]
    rfl

/-- C3 witness: a `"WIDGET"` block renders to `""`, and splitting a
two-block list does not change the accumulated HTML. -/
theorem C3_witness :
    ("WIDGET" ∉ handledBlockTypes ∧
      process_block_enhanced "display" { type := "WIDGET" } = "") ∧
    blocksHtml "display" ([c1StepTextBlock] ++ [c1EquationBlock]) =
      blocksHtml "display" [c1StepTextBlock] ++ blocksHtml "display" [c1EquationBlock] :=
  ⟨⟨by decide, C3_unknown_blocks_and_isolation.1 "display" { type := "WIDGET" } (by decide)⟩,
    C3_unknown_blocks_and_isolation.2 "display" [c1StepTextBlock] [c1EquationBlock]⟩

/-- C4 counterexample.  On the declared-1×2 table with raw keys `0-0`,
`0-1`, the HTML renderer (which transposes the keys and recomputes the
counts) emits a 2×1 grid while the text exporter (raw keys, declared
counts) emits a 1×2 grid: the two renderings diverge on both cell layout
and row/column counts. -/
theorem C4_counterexample :
    genericTableGrid c4Table = [["Alpha"], ["Beta"]] ∧
    textTableGrid c4Table = [["Alpha", "Beta"]] ∧
    genericTableGrid c4Table ≠ textTableGrid c4Table ∧
    (genericTableGrid c4Table).length ≠ (textTableGrid c4Table).length ∧
    textTableLines c4Table = ["| Alpha | Beta |", "| --- | --- |"] := by
  decide

/-- C4 (amended).  The HTML renderer and the text exporter agree only up
to transposition: for a TABLE whose cells exactly populate the declared
`rows × columns` grid with canonical single-paragraph non-math text and
no spans, the text exporter emits the declared grid row by row while the
HTML renderer emits its transpose (`columns × rows`, cell `(j, i)`
holding the text of declared cell `(i, j)`). -/
theorem C4_agree_up_to_transpose (rows cols : Nat) (hr : 0 < rows) (hc : 0 < cols)
    (f : Nat → Nat → String) (hm : ∀ i j, is_mathematical_expression (f i j) = .no) :
    textTableGrid (mkCanonicalTable rows cols f) =
      (List.range rows).map (fun i => (List.range cols).map (fun j => f i j)) ∧
    genericTableGrid (mkCanonicalTable rows cols f) =
      (List.range cols).map (fun j => (List.range rows).map (fun i => f i j)) := by
  constructor
  · unfold textTableGrid
    apply List.map_congr_left
    intro r hrm
    unfold textTableRow
    apply List.map_congr_left
    intro c hcm
    have hrr : r < rows := List.mem_range.mp hrm
    have hcc : c < cols := List.mem_range.mp hcm
    show (let content :=
        match dictLookup (mkCanonicalTable rows cols f).cells (r, c) with
        | some v => textCellContent v
        | none => ""
      if content ≠ "" ∧ is_mathematical_expression content ≠ .no then
        "$" ++ convertAsciimathToLatexForCopy (clean_math_expression content) ++ "$"
      else content) = f r c
    have hlook : dictLookup (mkCanonicalTable rows cols f).cells (r, c) =
        some (cellOfText (f r c)) := by
      show dictLookup (mkCanonicalCells rows cols f) (r, c) = some (cellOfText (f r c))
      rw [lookup_canonical rows cols f r c, if_pos ⟨hrr, hcc⟩]
    rw [hlook]
    simp [textCellContent_cellOfText, hm r c]
  · obtain ⟨hdr, hdc⟩ := derived_canonical rows cols f hr hc
    have h1 : ∀ p : Nat × Nat, rsAt (mkCanonicalTable rows cols f) p = 1 := fun _ => rfl
    have h2 : ∀ p : Nat × Nat, csAt (mkCanonicalTable rows cols f) p = 1 := fun _ => rfl
    have hne : (correctedCells (mkCanonicalTable rows cols f)).isEmpty = false := by
      rw [correctedCells_canonical]
      cases hl : (rowMajor rows cols).map (fun q => ((q.2, q.1), cellOfText (f q.1 q.2))) with
      | nil =>
        exfalso
        have hlen := congrArg List.length hl
        rw [List.length_map, rowMajor_length] at hlen
        simp only [List.length_nil] at hlen
        exact Nat.lt_irrefl 0 (hlen ▸ Nat.mul_pos hr hc)
      | cons a l => rfl
    have hemit : genericTableEmittedCells (mkCanonicalTable rows cols f) =
        (rowMajor cols rows).map (fun p => (p, f p.2 p.1)) := by
      simp only [genericTableEmittedCells, hne, Bool.false_eq_true, if_false]
      rw [hdr, hdc]
      rw [shadowWalk_all_unit (fun p => dictLookup (correctedCells (mkCanonicalTable rows cols f)) p)
        (fun p => rsAt (mkCanonicalTable rows cols f) p)
        (fun p => csAt (mkCanonicalTable rows cols f) p) cols rows h1 h2
        (rowMajor cols rows) [] (rowMajor_nodup cols rows)
        (fun p hp => mem_rowMajor.mp hp)
        (fun p _ hmem => absurd hmem (List.not_mem_nil p))]
      apply List.map_congr_left
      intro p hp
      obtain ⟨a, b⟩ := p
      have hb := mem_rowMajor.mp hp
      rw [lookup_corrected_canonical rows cols f a b, if_pos ⟨hb.2, hb.1⟩]
      simp [extractCellData_cellOfText]
    unfold genericTableGrid
    rw [hdr, hemit]
    apply List.map_congr_left
    intro r hrm
    rw [filterMap_rowMajor_row cols rows r (List.mem_range.mp hrm) (fun p => f p.2 p.1)]

/-- C4 witness: the amended theorem at a concrete 1×2 canonical table —
the text grid is `[["Alpha", "Beta"]]`, the HTML grid its transpose. -/
theorem C4_witness :
    textTableGrid (mkCanonicalTable 1 2 c4WitnessF) = [["Alpha", "Beta"]] ∧
    genericTableGrid (mkCanonicalTable 1 2 c4WitnessF) = [["Alpha"], ["Beta"]] := by
  have h := C4_agree_up_to_transpose 1 2 (by decide) (by decide) c4WitnessF (by
    intro i j
    unfold c4WitnessF
    by_cases hj : j = 0
    · rw [if_pos hj]; decide
    · rw [if_neg hj]; decide)
  exact ⟨h.1.trans (by decide), h.2.trans (by decide)⟩

/-- C5 counterexample.  On the table whose (transposed) cells sit at
`(0,0)`, `(0,1)`, `(0,2)` with colspan 2 declared at `(0,0)` *and* at
`(0,1)`, the loop emits 2 cells: the span of `(0,0)` covers `(0,1)`, so
`(0,1)` is skipped and its own span never marks the shadow grid, yet the
claim's formula still charges it `span_area − 1 = 1`, predicting
`1·3 − 2 = 1` cell.  The claimed identity fails when span rectangles
overlap. -/
theorem C5_counterexample :
    genericTableCellCount c5OverlapTable = 2 ∧
    derivedRows c5OverlapTable = 1 ∧
    derivedCols c5OverlapTable = 3 ∧
    spanExcess c5OverlapTable = 2 ∧
    genericTableCellCount c5OverlapTable ≠
      derivedRows c5OverlapTable * derivedCols c5OverlapTable - spanExcess c5OverlapTable := by
  decide

/-- C5 (amended).  Span conservation holds for every table whose cells are
well-formed: distinct (transposed) keys, span rectangles at least 1×1 that
stay inside the derived grid, and pairwise-disjoint span rectangles for
distinct spanning cells.  Then the number of cells emitted by
`process_generic_table` — each spanned cell counted once, at its origin —
equals `rows × cols − Σ (span_area − 1)` over all cells. -/
theorem C5_span_conservation_amended (t : TableBlock)
    (hne : correctedCells t ≠ [])
    (hkeys : ((correctedCells t).map (fun e => e.1)).Nodup)
    (hpos : ∀ e ∈ correctedCells t, 1 ≤ rsAt t e.1 ∧ 1 ≤ csAt t e.1)
    (hin : ∀ e ∈ correctedCells t, e.1.1 + rsAt t e.1 ≤ derivedRows t ∧
      e.1.2 + csAt t e.1 ≤ derivedCols t)
    (hdisj : ∀ e ∈ correctedCells t, ∀ e2 ∈ correctedCells t, e.1 ≠ e2.1 →
      2 ≤ rsAt t e.1 * csAt t e.1 → 2 ≤ rsAt t e2.1 * csAt t e2.1 →
      ∀ x ∈ rowMajor (derivedRows t) (derivedCols t),
        x ∈ spanMarks (rsAt t e.1) (csAt t e.1) e.1 (derivedRows t) (derivedCols t) →
        x ∈ spanMarks (rsAt t e2.1) (csAt t e2.1) e2.1 (derivedRows t) (derivedCols t) →
        False) :
    genericTableCellCount t = derivedRows t * derivedCols t - spanExcess t := by
  have hent : ∀ p : Nat × Nat,
      (dictLookup (correctedCells t) p).isSome = true → ∃ e ∈ correctedCells t, e.1 = p := by
    intro p hp
    obtain ⟨e, he, heq⟩ :=
      List.mem_map.mp ((dictLookup_isSome_iff (correctedCells t) p).mp hp)
    exact ⟨e, he, heq⟩
  have hpos' : ∀ p ∈ rowMajor (derivedRows t) (derivedCols t),
      (dictLookup (correctedCells t) p).isSome = true →
      1 ≤ rsAt t p ∧ 1 ≤ csAt t p := by
    intro p _ hp
    obtain ⟨e, he, heq⟩ := hent p hp
    subst heq
    exact hpos e he
  have hin' : ∀ p ∈ rowMajor (derivedRows t) (derivedCols t),
      (dictLookup (correctedCells t) p).isSome = true →
      p.1 + rsAt t p ≤ derivedRows t ∧ p.2 + csAt t p ≤ derivedCols t := by
    intro p _ hp
    obtain ⟨e, he, heq⟩ := hent p hp
    subst heq
    exact hin e he
  have hdisj' : ∀ p ∈ rowMajor (derivedRows t) (derivedCols t),
      ∀ p2 ∈ rowMajor (derivedRows t) (derivedCols t),
      (dictLookup (correctedCells t) p).isSome = true →
      (dictLookup (correctedCells t) p2).isSome = true → p ≠ p2 →
      2 ≤ rsAt t p * csAt t p → 2 ≤ rsAt t p2 * csAt t p2 →
      ∀ x, x ∈ spanMarks (rsAt t p) (csAt t p) p (derivedRows t) (derivedCols t) →
        x ∈ spanMarks (rsAt t p2) (csAt t p2) p2 (derivedRows t) (derivedCols t) →
        False := by
    intro p _ p2 _ hp hp2 hne12 ha1 ha2 x hx1 hx2
    obtain ⟨e, he, heq⟩ := hent p hp
    obtain ⟨e2, he2, heq2⟩ := hent p2 hp2
    subst heq
    subst heq2
    have hxg : x ∈ rowMajor (derivedRows t) (derivedCols t) := by
      have hb := mem_spanMarks.mp hx1
      exact mem_rowMajor.mpr ⟨hb.2.2.2.2.1, hb.2.2.2.2.2⟩
    exact hdisj e he e2 he2 hne12 ha1 ha2 x hxg hx1 hx2
  have hmain := emitted_count (fun p => dictLookup (correctedCells t) p)
    (fun p => rsAt t p) (fun p => csAt t p) (derivedRows t) (derivedCols t)
    hpos' hin' hdisj'
  have hcsi : (correctedCells t).isEmpty = false := by
    cases hcc : correctedCells t with
    | nil => exact absurd hcc hne
    | cons a l => rfl
  have hcount : genericTableCellCount t =
      (shadowWalk (fun p => dictLookup (correctedCells t) p) (fun p => rsAt t p)
        (fun p => csAt t p) (derivedRows t) (derivedCols t)
        (rowMajor (derivedRows t) (derivedCols t)) []).length := by
    unfold genericTableCellCount genericTableEmittedCells
    rw [if_neg (show ¬((correctedCells t).isEmpty = true) by simp [hcsi])]
  rw [hcount, hmain]
  congr 1
  have hperm : ((rowMajor (derivedRows t) (derivedCols t)).filter
      (fun p => (dictLookup (correctedCells t) p).isSome)).Perm
      ((correctedCells t).map (fun e => e.1)) := by
    apply (List.perm_ext_iff_of_nodup ((rowMajor_nodup _ _).filter _) hkeys).mpr
    intro p
    rw [List.mem_filter]
    constructor
    · rintro ⟨-, hp⟩
      exact (dictLookup_isSome_iff (correctedCells t) p).mp hp
    · intro hp
      refine ⟨?_, (dictLookup_isSome_iff (correctedCells t) p).mpr hp⟩
      exact mem_rowMajor.mpr (key_lt_derived hp)
  calc (((rowMajor (derivedRows t) (derivedCols t)).filter
        (fun p => (dictLookup (correctedCells t) p).isSome)).map
        (fun p => rsAt t p * csAt t p - 1)).sum
      = (((correctedCells t).map (fun e => e.1)).map
          (fun p => rsAt t p * csAt t p - 1)).sum :=
        (hperm.map (fun p => rsAt t p * csAt t p - 1)).sum_eq
    _ = spanExcess t := by rw [List.map_map]; rfl

/-- C5 witness.  The amended theorem applied to the concrete 2×2 table
with one non-overlapping colspan-2 cell at `(0,0)`: 3 cells are emitted,
and `2·2 − (2−1) = 3`. -/
theorem C5_witness :
    genericTableCellCount c5SpanTable = 3 ∧
    derivedRows c5SpanTable * derivedCols c5SpanTable - spanExcess c5SpanTable = 3 := by
  constructor
  · exact (C5_span_conservation_amended c5SpanTable (List.cons_ne_nil _ _) (by decide)
      (by decide) (by decide) (by decide)).trans (by decide)
  · decide

/-- C6 counterexample.  A TABLE block with a declared 1×1 grid and zero
cells renders to `""` in the HTML renderer, but the text exporter's TABLE
branch still emits a pipe row and a separator row for it — and those
survive into the exported document — so empty-in-empty-out does not hold
in both exporters. -/
theorem C6_counterexample :
    process_generic_table "display" c6TableBlock = "" ∧
    process_block_enhanced "display" c6TableBlock = "" ∧
    textExportBlock c6TableBlock = ["|  |", "| --- |"] ∧
    convertAnswerToCleanText { finalBlocks := [c6TableBlock] } =
      "**Final Answer**\n|  |\n| --- |" := by
  decide

/-- C6 (amended).  Empty-in-empty-out holds for the HTML renderer (blank
TEXT/EXPLANATION, zero-item LIST, a TABLE with no payload, no cells, or
only blank cells all render to `""`), and for the text exporter on
TEXT/EXPLANATION and LIST blocks; the text exporter's TABLE branch
violates it (see the counterexample). -/
theorem C6_empty_in_empty_out_amended :
    (∀ (mode : String) (b : Block), (b.type = "TEXT" ∨ b.type = "EXPLANATION") →
      b.editorContent = [] → pyStrip b.contentText = "" → b.label = none →
      process_block_enhanced mode b = "" ∧ textExportBlock b = []) ∧
    (∀ (mode : String) (b : Block), b.type = "LIST" → b.editorContent = [] →
      process_block_enhanced mode b = "" ∧ textExportBlock b = []) ∧
    (∀ (mode : String) (b : Block) (t : TableBlock), b.type = "TABLE" → b.table = some t →
      t.cells = [] → process_block_enhanced mode b = "") ∧
    (∀ (mode : String) (b : Block), b.type = "TABLE" → b.table = none →
      process_block_enhanced mode b = "" ∧ textExportBlock b = []) ∧
    (∀ t : TableBlock, (∀ e ∈ t.cells, pyStrip (extractCellData e.2).1 = "") →
      genericTableHtml t = "") := by
  refine ⟨?_, ?_, ?_, ?_, fun t hb => genericTableHtml_blank t hb⟩
  · intro mode b hty hec hct hlb
    have hdisp : process_block_enhanced mode b = processTextBlock mode b.type b := by
      rcases hty with h | h <;> simp [process_block_enhanced, h]
    constructor
    · rw [hdisp]
      unfold processTextBlock
      rw [hec]
      by_cases hc : b.contentText = ""
      · have : pyStrip "\x7b\x7d" = "\x7b\x7d" := by decide
        simp [hc, this]
      · simp [hc, hct]
    · rcases hty with h | h <;> simp [textExportBlock, h, hlb, hec]
  · intro mode b hty hec
    constructor
    · simp [process_block_enhanced, hty, processListBlock, hec]
    · simp [textExportBlock, hty, hec]
  · intro mode b t hty htb hcells
    simp [process_block_enhanced, hty, process_generic_table, htb, genericTableHtml,
      correctedCells, hcells]
  · intro mode b hty htb
    constructor
    · simp [process_block_enhanced, hty, process_generic_table, htb]
    · simp [textExportBlock, hty, htb]

/-- C6 witness: the amended theorem instantiated at a blank TEXT block,
an empty LIST block, the zero-cell table, a payload-free TABLE block, and
a 1×1 table whose single cell is blank. -/
theorem C6_witness :
    (process_block_enhanced "display" c6BlankTextBlock = "" ∧
      textExportBlock c6BlankTextBlock = []) ∧
    (process_block_enhanced "display" c6ListBlock = "" ∧ textExportBlock c6ListBlock = []) ∧
    process_block_enhanced "display" c6TableBlock = "" ∧
    (process_block_enhanced "display" c6NoTableBlock = "" ∧
      textExportBlock c6NoTableBlock = []) ∧
    genericTableHtml c6BlankCellTable = "" :=
  ⟨C6_empty_in_empty_out_amended.1 "display" c6BlankTextBlock (Or.inl rfl) rfl (by decide) rfl,
   C6_empty_in_empty_out_amended.2.1 "display" c6ListBlock rfl rfl,
   C6_empty_in_empty_out_amended.2.2.1 "display" c6TableBlock c6EmptyTable rfl rfl rfl,
   C6_empty_in_empty_out_amended.2.2.2.1 "display" c6NoTableBlock rfl rfl,
   C6_empty_in_empty_out_amended.2.2.2.2 c6BlankCellTable (by decide)⟩

/-- C7.  `is_mathematical_expression` is a pure function (hence the same
result on every run), and on the spec's fixed samples: `"x_1 = 5"` is
INLINE, `"V_R = \frac{P}{I}"` is DISPLAY, `"the capital of France"` is
not math. -/
theorem C7_classification_stability :
    is_mathematical_expression "x_1 = 5" = .inline ∧
    is_mathematical_expression "V_R = \\frac\x7bP\x7d\x7bI\x7d" = .display ∧
    is_mathematical_expression "the capital of France" = .no := by
  decide

/-- C8.  `process_ordered_list` reads the `start` attribute (line 756)
but never emits it: the rendered output of an ordered list with
`start = 3` carries no `start` attribute at all (and is opened with
`<ul>` but closed with `</ol>`), so the start index is not preserved. -/
theorem C8_start_attribute_dropped :
    processOrderedList "display" 0 3 c8Items = "<ul class=\"\"><li><p>x</p></li></ol>" ∧
    processContentItem "display" (.orderedList 3 c8Items) =
      processOrderedList "display" 0 3 c8Items ∧
    countSubstr (processOrderedList "display" 0 3 c8Items) "start" = 0 ∧
    countSubstr (processOrderedList "display" 0 3 c8Items) "3" = 0 := by
  decide

/-- C9.  A step that renders empty (no blocks, or all blocks blank)
contributes nothing — in particular no step header — yet the numbering of
the other steps still counts it: a step at position `i` whose body is
non-empty is labelled `Step (i+1) of total` with `total` the full step
count.  On the concrete two-step document whose first step renders empty
the output has exactly one header, `Step 2 of 2`. -/
theorem C9_empty_steps_keep_numbering :
    (∀ (mode : String) (total i : Nat) (st : Step),
      (st.blocks = [] ∨ blocksHtml mode st.blocks = "") →
      stepContribution mode total i st = "") ∧
    (∀ (mode : String) (total i : Nat) (st : Step),
      blocksHtml mode st.blocks ≠ "" → pyStrip st.title = "" →
      stepContribution mode total i st =
        "<div class=\"step-header\">Step " ++ toString (i + 1) ++ " of " ++ toString total ++
          "</div>" ++ blocksHtml mode st.blocks) ∧
    (process_sqna_content_for_html "display" c9Document =
      "<div class=\"step-header\">Step 2 of 2</div><p>Compute the current.</p>" ∧
     countSubstr (process_sqna_content_for_html "display" c9Document) "step-header" = 1 ∧
     countSubstr (process_sqna_content_for_html "display" c9Document) "Step 2 of 2" = 1 ∧
     countSubstr (process_sqna_content_for_html "display" c9Document) "Step 1" = 0) := by
  refine ⟨?_, ?_, by decide⟩
  · intro mode total i st h
    rcases h with h | h
    · simp [stepContribution, h]
    · by_cases hb : st.blocks.isEmpty
      · simp [stepContribution, hb]
      · simp [stepContribution, hb, h]
  · intro mode total i st h ht
    have hb : st.blocks.isEmpty = false := by
      cases hbs : st.blocks with
      | nil => exact absurd (by simp [hbs, blocksHtml]) h
      | cons x xs => simp [hbs]
    simp [stepContribution, hb, h, ht]

/-- C9 witness: the general parts instantiated — an empty step
contributes `""`, and the second step of the concrete document gets the
label `Step 2 of 2`. -/
theorem C9_witness :
    (stepContribution "display" 2 0 { title := "", blocks := [] } = "" ∧
     stepContribution "display" 2 0 { title := "", blocks := [c9BlankBlock] } = "") ∧
    stepContribution "display" 2 1 { title := "", blocks := [c1StepTextBlock] } =
      "<div class=\"step-header\">Step 2 of 2</div>" ++
        blocksHtml "display" [c1StepTextBlock] :=
  ⟨⟨C9_empty_steps_keep_numbering.1 "display" 2 0 _ (Or.inl rfl),
    C9_empty_steps_keep_numbering.1 "display" 2 0 _ (Or.inr (by decide))⟩,
    C9_empty_steps_keep_numbering.2.1 "display" 2 1 _ (by decide) (by decide)⟩

/-- C10.  In `determine_cell_alignment`, a cell whose extracted content
classifies as math and cleans to a non-empty expression is returned as an
equation span (per mode) with alignment `center`; this rule runs before
the currency/percentage/number/date rules, so such a cell is never
right-aligned. -/
theorem C10_math_cells_centered (mode : String) (v : CellValue)
    (h1 : dcaContent v ≠ "") (h2 : dcaContent v ≠ "\x7b\x7d")
    (h3 : is_mathematical_expression (dcaContent v) ≠ .no)
    (h4 : clean_math_expression (dcaContent v) ≠ "") :
    determine_cell_alignment mode v =
      ((if mode = "display" then
          "<span class=\"equation-line\">`" ++ clean_math_expression (dcaContent v) ++ "`</span>"
        else
          "<span data-math-type=\"mhchem\">" ++ clean_math_expression (dcaContent v) ++
            "</span>"),
        "center") := by
  simp only [determine_cell_alignment]
  rw [if_neg (by exact fun h => h.elim h1 h2), if_pos ⟨h3, h4⟩]
  by_cases hm : mode = "display" <;> simp [hm]

/-- C10 witness: the string cell `"x_1 = 5"` (an INLINE math sample) is
returned centered as an equation span in display mode. -/
theorem C10_witness :
    (dcaContent (.str "x_1 = 5") ≠ "" ∧ dcaContent (.str "x_1 = 5") ≠ "\x7b\x7d" ∧
      is_mathematical_expression (dcaContent (.str "x_1 = 5")) ≠ .no ∧
      clean_math_expression (dcaContent (.str "x_1 = 5")) ≠ "") ∧
    determine_cell_alignment "display" (.str "x_1 = 5") =
      ("<span class=\"equation-line\">`x_1 = 5`</span>", "center") :=
  ⟨⟨by decide, by decide, by decide, by decide⟩,
    (C10_math_cells_centered "display" (.str "x_1 = 5") (by decide) (by decide) (by decide)
        (by decide)).trans (by decide)⟩

end AnswerGen
